import Mathlib

/-!
# Verification of the Axanet client-record store

A shallow embedding of the Axanet client manager (three Python
implementations: `modelos.py`/`cliente_manager.py`, `models.py`/`services.py`
and `axanet_client_manager.py`) over `List Char` as the string model, together
with proofs and refutations of the specification's claims.

Python strings are modelled as lists of characters.  Python's `str.strip`,
`str.lower`, `re.sub`, `str.split` and friends are modelled character by
character on the ASCII fragment plus the accented Latin letters the source
mentions; full Unicode case folding is outside the model.
-/

namespace Axanet

/-- Python strings, modelled as lists of characters. -/
abbrev Str := List Char

/-- The ASCII whitespace characters recognised by Python's `str.strip()` and
by the regex class `\s` (space, tab, newline, carriage return, vertical tab,
form feed). -/
def esEspacio (c : Char) : Bool :=
  c == ' ' || c == '\t' || c == '\n' || c == '\r' || c == '\x0b' || c == '\x0c'

/-- `str.lstrip()`: drop leading whitespace. -/
def lstrip (s : Str) : Str := s.dropWhile esEspacio

/-- `str.rstrip()`: drop trailing whitespace. -/
def rstrip (s : Str) : Str := (s.reverse.dropWhile esEspacio).reverse

/-- `str.strip()`: drop leading and trailing whitespace. -/
def pyStrip (s : Str) : Str := rstrip (lstrip s)

/-- `str.rstrip(")")`: drop all trailing right parentheses. -/
def rstripParen (s : Str) : Str := (s.reverse.dropWhile (fun c => c == ')')).reverse

/-- ASCII decimal digit test (`\d` on the ASCII fragment). -/
def esDigito (c : Char) : Bool := '0' ≤ c && c ≤ '9'

/-- ASCII letter test (`[a-zA-Z]`). -/
def esAlfa (c : Char) : Bool := ('a' ≤ c && c ≤ 'z') || ('A' ≤ c && c ≤ 'Z')

/-- Characters allowed in a normalized key (`[a-z0-9_]`). -/
def esClaveChar (c : Char) : Bool := ('a' ≤ c && c ≤ 'z') || esDigito c || c == '_'

/-- `str.lower()` on one character, for ASCII letters and the accented
letters appearing in the source (Á É Í Ó Ú Ñ Ç).  Other characters are
unchanged. -/
def pyLowerChar (c : Char) : Char :=
  if c = 'Á' then 'á' else if c = 'É' then 'é' else if c = 'Í' then 'í'
  else if c = 'Ó' then 'ó' else if c = 'Ú' then 'ú' else if c = 'Ñ' then 'ñ'
  else if c = 'Ç' then 'ç'
  else if 'A' ≤ c ∧ c ≤ 'Z' then Char.ofNat (c.toNat + 32) else c

/-- `str.upper()` on one character, for ASCII letters and the accented
letters appearing in the source. -/
def pyUpperChar (c : Char) : Char :=
  if c = 'á' then 'Á' else if c = 'é' then 'É' else if c = 'í' then 'Í'
  else if c = 'ó' then 'Ó' else if c = 'ú' then 'Ú' else if c = 'ñ' then 'Ñ'
  else if c = 'ç' then 'Ç'
  else if 'a' ≤ c ∧ c ≤ 'z' then Char.ofNat (c.toNat - 32) else c

/-- `str.lower()` on a whole string. -/
def pyLower (s : Str) : Str := s.map pyLowerChar

/-- `str.startswith(t)`. -/
def esPrefijo : Str → Str → Bool
  | [], _ => true
  | _ :: _, [] => false
  | a :: as, b :: bs => a == b && esPrefijo as bs

/-- `str.endswith(t)`. -/
def esSufijo (t s : Str) : Bool := esPrefijo t.reverse s.reverse

/-- Python's substring test `t in s`. -/
def contieneSub (t : Str) : Str → Bool
  | [] => esPrefijo t []
  | c :: cs => esPrefijo t (c :: cs) || contieneSub t cs

/-- `s.replace(a, b)` for single characters: replace every occurrence of `a`
by `b`. -/
def pyReplaceChar (a b : Char) (s : Str) : Str := s.map fun c => if c = a then b else c

/-- `re.sub(r"\s+", "_", s)`: replace each maximal run of whitespace by one
underscore.  The flag records whether the previous character was whitespace
(so only the first character of a run emits the underscore). -/
def subEspacios : Bool → Str → Str
  | _, [] => []
  | prev, c :: cs =>
    if esEspacio c then (if prev then subEspacios true cs else '_' :: subEspacios true cs)
    else c :: subEspacios false cs

/-- `str.split()` with no argument: the whitespace-separated words, empty
chunks discarded. -/
def palabras (s : Str) : List Str := (s.splitOnP esEspacio).filter (fun w => w ≠ [])

/-- The text after the first `:` of a line, stripped — models
`line.split(":", 1)[1].strip()` for lines known to contain a colon. -/
def valorTras (linea : Str) : Str :=
  pyStrip ((linea.dropWhile (fun c => !(c == ':'))).drop 1)

/-- The key before the first `:` of a line, stripped — models
`line.split(":", 1)[0].strip()`. -/
def claveAntes (linea : Str) : Str :=
  pyStrip (linea.takeWhile (fun c => !(c == ':')))

/-- `s.rsplit("(", 1)` for a string containing `(`: the pair of the text
before the last `(` and the text after it. -/
def rsplitParen (s : Str) : Str × Str :=
  let despues := (s.reverse.takeWhile (fun c => !(c == '('))).reverse
  let antes := s.take (s.length - despues.length - 1)
  (antes, despues)

/-- `"\n".join(lines)`. -/
def uneLineas : List Str → Str
  | [] => []
  | [l] => l
  | l :: ls => l ++ '\n' :: uneLineas ls

/-- Association-list lookup, modelling a Python dict lookup (first binding
for the key). -/
def buscaA {α : Type} : List (Str × α) → Str → Option α
  | [], _ => none
  | (k', v) :: r, k => if k' = k then some v else buscaA r k

/-- Association-list insertion, modelling a Python dict assignment: replace
in place if the key is bound, else append (dicts preserve insertion order). -/
def insertA {α : Type} : List (Str × α) → Str → α → List (Str × α)
  | [], k, v => [(k, v)]
  | (k', v') :: r, k, v => if k' = k then (k, v) :: r else (k', v') :: insertA r k v

/-- The value of a digit string (only used on all-digit strings). -/
def digitosANat (s : Str) : Nat := s.foldl (fun a c => a * 10 + (c.toNat - '0'.toNat)) 0

/-- A natural number as a decimal string left-padded with zeros to width `w`,
modelling `strftime`'s zero-padded fields. -/
def padNat (w n : Nat) : Str :=
  let ds := Nat.toDigits 10 n
  List.replicate (w - ds.length) '0' ++ ds

/-- The email pattern `^[a-zA-Z0-9._%+-]+@[a-zA-Z0-9.-]+\.[a-zA-Z]{2,}$` used
by both validators, as an executable matcher: a nonempty local part of the
allowed characters, `@`, a nonempty domain of the allowed characters, and
after the final dot at least two ASCII letters. -/
def esLocalChar (c : Char) : Bool :=
  esAlfa c || esDigito c || c == '.' || c == '_' || c == '%' || c == '+' || c == '-'

/-- Characters of the domain part before the final dot. -/
def esDominioChar (c : Char) : Bool := esAlfa c || esDigito c || c == '.' || c == '-'

/-- The executable email matcher. -/
def emailOk (s : Str) : Bool :=
  let locale := s.takeWhile (fun c => !(c == '@'))
  match s.drop locale.length with
  | '@' :: dominio =>
    decide (locale ≠ []) && locale.all esLocalChar &&
    (let revD := dominio.reverse
     let tldR := revD.takeWhile (fun c => !(c == '.'))
     match revD.drop tldR.length with
     | '.' :: antesR =>
       decide (2 ≤ tldR.length) && tldR.all esAlfa &&
       decide (antesR ≠ []) && antesR.all esDominioChar
     | _ => false)
  | _ => false

/-- Decidable equality of `Except` values, so that concrete runs of the
fallible operations can be checked by `decide`. -/
instance exceptDecEq {ε α : Type} [DecidableEq ε] [DecidableEq α] :
    DecidableEq (Except ε α) := fun a b =>
  match a, b with
  | .error e, .error f =>
    if h : e = f then .isTrue (by rw [h]) else .isFalse (fun hc => h (Except.error.inj hc))
  | .error _, .ok _ => .isFalse (fun hc => Except.noConfusion hc)
  | .ok _, .error _ => .isFalse (fun hc => Except.noConfusion hc)
  | .ok x, .ok y =>
    if h : x = y then .isTrue (by rw [h]) else .isFalse (fun hc => h (Except.ok.inj hc))

/-! ## Error kinds

The error kinds of both exception hierarchies (`excepciones.py` /
`exceptions.py`), at the granularity the spec distinguishes. -/

/-- Error kinds raised by the store and the models. -/
inductive AxErr : Type where
  | errorValidacion (campo : Str)
  | clienteExiste
  | clienteNoEncontrado
  | errorArchivo
deriving DecidableEq, Repr

/-! ## Spanish implementation: `modelos.py` and `cliente_manager.py` -/

/-- `modelos.Servicio`: a requested service (description and timestamp). -/
structure Servicio : Type where
  descripcion : Str
  fecha_solicitud : Str
deriving DecidableEq, Repr

/-- `Servicio.__init__`: the description is stripped; a falsy timestamp
(`None` or the empty string) is replaced by the current time `ahora`. -/
def Servicio.nuevo (descripcion : Str) (fecha : Option Str) (ahora : Str) : Servicio :=
  { descripcion := pyStrip descripcion
    fecha_solicitud :=
      match fecha with
      | some f => if f = [] then ahora else f
      | none => ahora }

/-- `modelos.Cliente`: the client record. -/
structure Cliente : Type where
  nombre : Str
  telefono : Str
  email : Str
  id_cliente : Str
  fecha_registro : Str
  servicios : List Servicio
deriving DecidableEq, Repr

/-- `Cliente.__init__` together with `Cliente.validar_datos`: strip the three
fields, then require a name of length at least 2, a phone whose digits number
exactly 10 (the phone is replaced by its digits), and an email matching the
pattern.  `hoy` is the registration date stamped at construction. -/
def mkCliente (nombre telefono email hoy : Str) : Except AxErr Cliente :=
  let n := pyStrip nombre
  let t := pyStrip telefono
  let e := pyStrip email
  if n.length < 2 then .error (.errorValidacion "nombre".toList)
  else
    let limpio := t.filter esDigito
    if limpio.length ≠ 10 then .error (.errorValidacion "telefono".toList)
    else if !emailOk e then .error (.errorValidacion "email".toList)
    else .ok { nombre := n, telefono := limpio, email := e,
               id_cliente := [], fecha_registro := hoy, servicios := [] }

/-- The replacement table of `Cliente.nombre_normalizado`, applied in order
by repeated `str.replace`. -/
def reemplazos : List (Char × Char) :=
  [('á', 'a'), ('é', 'e'), ('í', 'i'), ('ó', 'o'), ('ú', 'u'),
   ('ñ', 'n'), ('ç', 'c'), (' ', '_')]

/-- `Cliente.nombre_normalizado`, as a function of the stored (already
stripped) name: lower-case, apply the replacement table, then drop every
character outside `[a-z0-9_]`. -/
def nombreNormalizado (nombre : Str) : Str :=
  let bajo := pyLower nombre
  let reemplazado := reemplazos.foldl (fun s p => pyReplaceChar p.1 p.2 s) bajo
  reemplazado.filter esClaveChar

/-- The key a raw input name is filed under: the constructor strips the name
and `nombre_normalizado` normalizes the stored name. -/
def claveDe (nombre : Str) : Str := nombreNormalizado (pyStrip nombre)

/-- `Cliente.generar_id_cliente`: initials of at most the first two words,
padded from the name's first two characters when shorter than 2, followed by
`_` and the timestamp `ts` (rendered by the caller's clock). -/
def generarIdCliente (nombre : Str) (ts : Str) : Str :=
  let ps := palabras nombre
  let iniciales := (ps.take 2).foldl (fun a w => a ++ (w.take 1).map pyUpperChar) []
  let iniciales :=
    if iniciales.length < 2 then (iniciales ++ (nombre.take 2).map pyUpperChar).take 2
    else iniciales
  iniciales ++ '_' :: ts

/-- `Cliente.agregar_servicio`: reject a description that strips to empty,
otherwise append a `Servicio` stamped with the current time. -/
def agregarServicio (c : Cliente) (descripcion : Str) (ahora : Str) : Except AxErr Cliente :=
  if pyStrip descripcion = [] then .error (.errorValidacion "descripcion_servicio".toList)
  else .ok { c with servicios := c.servicios ++ [Servicio.nuevo descripcion none ahora] }

/-- One encoded service line `- <descripcion> (<fecha>)`. -/
def lineaServicio (s : Servicio) : Str :=
  "- ".toList ++ s.descripcion ++ " (".toList ++ s.fecha_solicitud ++ [')']

/-- `Cliente.a_formato_archivo`: the header lines, the `Servicios:` marker,
then one line per service, joined with newlines. -/
def aFormatoArchivo (c : Cliente) : Str :=
  uneLineas
    ([ "Nombre: ".toList ++ c.nombre,
       "ID_Cliente: ".toList ++ c.id_cliente,
       "Telefono: ".toList ++ c.telefono,
       "Correo: ".toList ++ c.email,
       "FechaRegistro: ".toList ++ c.fecha_registro,
       "Servicios:".toList ]
     ++ c.servicios.map lineaServicio)

/-- The parse state of `Cliente.desde_archivo`'s line loop. -/
structure DatosParse : Type where
  nombre : Str
  telefono : Str
  email : Str
  id_cliente : Str
  fecha_registro : Str
  seccion : Bool
  servicios : List (Str × Option Str)
deriving Repr

/-- One iteration of `Cliente.desde_archivo`'s loop, following the `elif`
chain of the source exactly. -/
def pasoParse (d : DatosParse) (linea0 : Str) : DatosParse :=
  let linea := pyStrip linea0
  if esPrefijo "Nombre:".toList linea then { d with nombre := valorTras linea }
  else if esPrefijo "ID_Cliente:".toList linea then { d with id_cliente := valorTras linea }
  else if esPrefijo "Telefono:".toList linea then { d with telefono := valorTras linea }
  else if esPrefijo "Correo:".toList linea then { d with email := valorTras linea }
  else if esPrefijo "FechaRegistro:".toList linea then { d with fecha_registro := valorTras linea }
  else if linea = "Servicios:".toList then { d with seccion := true }
  else if d.seccion && esPrefijo "- ".toList linea then
    let texto := linea.drop 2
    if texto.contains '(' && texto.contains ')' then
      let partes := rsplitParen texto
      { d with servicios := d.servicios ++ [(pyStrip partes.1, some (rstripParen partes.2))] }
    else { d with servicios := d.servicios ++ [(texto, none)] }
  else d

/-- The empty parse state. -/
def parseInicial : DatosParse :=
  { nombre := [], telefono := [], email := [], id_cliente := [],
    fecha_registro := [], seccion := false, servicios := [] }

/-- `Cliente.desde_archivo`: strip the content, split into lines, run the
line loop, then build the client through the validating constructor and
overwrite `id_cliente`, `fecha_registro` and the service list.  A service
parsed without a timestamp receives the current time `ahora` through
`Servicio.__init__`. -/
def desdeArchivo (contenido : Str) (ahora : Str) : Except AxErr Cliente :=
  let lineas := (pyStrip contenido).splitOn '\n'
  let d := lineas.foldl pasoParse parseInicial
  match mkCliente d.nombre d.telefono d.email [] with
  | .error e => .error e
  | .ok c =>
    .ok { c with id_cliente := d.id_cliente, fecha_registro := d.fecha_registro,
                 servicios := d.servicios.map (fun p => Servicio.nuevo p.1 p.2 ahora) }

/-- The state of `ClienteManager`: the in-memory hash table (`_cache_clientes`)
and the on-disk file collection (key ↦ file content). -/
structure EstadoS : Type where
  cache : List (Str × Cliente)
  disco : List (Str × Str)
deriving Repr

/-- `ClienteManager.crear_cliente`.  `hoy`, `ts` and `ahora` are the three
clock readings (`%Y-%m-%d`, `%Y%m%d%H%M%S`, `%Y-%m-%d %H:%M:%S`).
`writeOk` models whether the file write succeeds; when it fails the
exception propagates before the cache insertion, so the state is unchanged. -/
def crearCliente (st : EstadoS) (nombre telefono email servicio hoy ts ahora : Str)
    (writeOk : Bool) : EstadoS × Except AxErr Cliente :=
  match mkCliente nombre telefono email hoy with
  | .error e => (st, .error e)
  | .ok c0 =>
    let k := nombreNormalizado c0.nombre
    if (buscaA st.cache k).isSome then (st, .error .clienteExiste)
    else if (buscaA st.disco k).isSome then (st, .error .clienteExiste)
    else
      let c1 := { c0 with id_cliente := generarIdCliente c0.nombre ts }
      match agregarServicio c1 servicio ahora with
      | .error e => (st, .error e)
      | .ok c2 =>
        if writeOk then
          ({ cache := insertA st.cache k c2,
             disco := insertA st.disco k (aFormatoArchivo c2) }, .ok c2)
        else (st, .error .errorArchivo)

/-- `ClienteManager.obtener_cliente`: normalize through a throwaway validated
client, look up the cache, on a miss load and decode the file and insert the
decoded client into the cache; `ClienteNoEncontradoError` when the file is
absent, `ErrorArchivo` when reading or decoding fails. -/
def obtenerCliente (st : EstadoS) (nombre : Str) (ahora : Str) :
    EstadoS × Except AxErr Cliente :=
  match mkCliente nombre "0000000000".toList "temp@temp.com".toList [] with
  | .error e => (st, .error e)
  | .ok temp =>
    let k := nombreNormalizado temp.nombre
    match buscaA st.cache k with
    | some c => (st, .ok c)
    | none =>
      match buscaA st.disco k with
      | none => (st, .error .clienteNoEncontrado)
      | some ct =>
        match desdeArchivo ct ahora with
        | .ok c => ({ st with cache := insertA st.cache k c }, .ok c)
        | .error _ => (st, .error .errorArchivo)

/-! ## English implementation: `models.py` and `services.py`
(`axanet_client_manager.py` shares its normalizer and id generator) -/

/-- A `datetime.datetime` value, to second precision. -/
structure DateTime : Type where
  year : Nat
  month : Nat
  day : Nat
  hour : Nat
  minute : Nat
  second : Nat
deriving DecidableEq, Repr

/-- `strftime("%Y-%m-%d")`. -/
def fmtDate (d : DateTime) : Str :=
  padNat 4 d.year ++ '-' :: padNat 2 d.month ++ '-' :: padNat 2 d.day

/-- `strftime("%Y%m%d%H%M%S")`. -/
def fmtTs (d : DateTime) : Str :=
  padNat 4 d.year ++ padNat 2 d.month ++ padNat 2 d.day ++
  padNat 2 d.hour ++ padNat 2 d.minute ++ padNat 2 d.second

/-- `datetime.strptime(s, "%Y-%m-%d")`: three dash-separated digit groups
with the month in 1..12 and the day in 1..31, at midnight; `none` models the
`ValueError`.  (Day-in-month bounds beyond 31 are outside the model.) -/
def strptimeYMD (s : Str) : Option DateTime :=
  match s.splitOn '-' with
  | [y, m, d] =>
    if y ≠ [] && y.all esDigito && m ≠ [] && m.all esDigito && d ≠ [] && d.all esDigito then
      let mv := digitosANat m
      let dv := digitosANat d
      if 1 ≤ mv && mv ≤ 12 && 1 ≤ dv && dv ≤ 31 then
        some ⟨digitosANat y, mv, dv, 0, 0, 0⟩
      else none
    else none
  | _ => none

/-- `models.Service`: description and request timestamp. -/
structure Service : Type where
  description : Str
  date_requested : DateTime
deriving DecidableEq, Repr

/-- `models.Client`: the dataclass stores the fields as given (no stripping). -/
structure Client : Type where
  name : Str
  phone : Str
  email : Str
  services : List Service
  client_id : Str
  registration_date : DateTime
deriving DecidableEq, Repr

/-- `normalize_name` of `axanet_client_manager.py` and the
`Client.normalized_name` property: strip, lower-case, then replace each
whitespace run with a single underscore.  No transliteration, no dropping. -/
def normalizedNameE (name : Str) : Str := subEspacios false (pyLower (pyStrip name))

/-- `Client._generate_client_id` and `generate_client_id`: the upper-cased
first letter of every word of the stripped name (no two-word cap, no
padding), then `_` and the timestamp. -/
def generateClientIdE (name : Str) (ts : Str) : Str :=
  (palabras (pyStrip name)).foldl (fun a w => a ++ (w.take 1).map pyUpperChar) [] ++ '_' :: ts

/-- The dataclass constructor with `__post_init__`: an empty `client_id` is
generated from the name and the current time. -/
def mkClientE (name phone email : Str) (now : DateTime) : Client :=
  { name, phone, email, services := [],
    client_id := generateClientIdE name (fmtTs now), registration_date := now }

/-- `Client.validate`: name strips to length ≥ 2; the phone with `-`, space,
`(`, `)` removed is all digits, nonempty and of length ≥ 10 (the stored phone
keeps its formatting); the stripped email matches the pattern. -/
def validateE (c : Client) : Except AxErr Unit :=
  if pyStrip c.name = [] then .error (.errorValidacion "name".toList)
  else if (pyStrip c.name).length < 2 then .error (.errorValidacion "name".toList)
  else if pyStrip c.phone = [] then .error (.errorValidacion "phone".toList)
  else
    let limpio := (pyStrip c.phone).filter
      (fun c => !(c == '-') && !(c == ' ') && !(c == '(') && !(c == ')'))
    if limpio = [] || !limpio.all esDigito then .error (.errorValidacion "phone".toList)
    else if limpio.length < 10 then .error (.errorValidacion "phone".toList)
    else if pyStrip c.email = [] then .error (.errorValidacion "email".toList)
    else if !emailOk (pyStrip c.email) then .error (.errorValidacion "email".toList)
    else .ok ()

/-- `Client.add_service`: reject a description that strips to empty, else
append a `Service` stamped `now`. -/
def addServiceE (c : Client) (description : Str) (now : DateTime) : Except AxErr Client :=
  if pyStrip description = [] then .error (.errorValidacion "service_description".toList)
  else .ok { c with services := c.services ++ [⟨pyStrip description, now⟩] }

/-- `Service.__str__`: `- <description> (<date only>)` — only the date part
of the timestamp is written. -/
def serviceLineE (s : Service) : Str :=
  "- ".toList ++ s.description ++ " (".toList ++ fmtDate s.date_requested ++ [')']

/-- `Client.to_file_format`. -/
def toFileFormat (c : Client) : Str :=
  uneLineas
    ([ "Name: ".toList ++ c.name,
       "Client_ID: ".toList ++ c.client_id,
       "Phone: ".toList ++ c.phone,
       "Email: ".toList ++ c.email,
       "RegistrationDate: ".toList ++ fmtDate c.registration_date,
       "Services:".toList ]
     ++ (if c.services = [] then ["- No services registered yet".toList]
         else c.services.map serviceLineE))

/-- The parse state of `Client.from_file_content`. -/
structure ParseE : Type where
  name : Option Str
  phone : Option Str
  email : Option Str
  client_id : Option Str
  registration : Option DateTime
  services : List Service
  enServicios : Bool

/-- One iteration of `Client.from_file_content`'s loop.  A service line must
start with `- `, contain `" ("` and end with `)`; the timestamp is the text
between the last `(` and the final character, and a line whose timestamp is
not a valid `%Y-%m-%d` date is skipped entirely. -/
def pasoParseE (now : DateTime) (d : ParseE) (linea0 : Str) : ParseE :=
  let linea := pyStrip linea0
  if linea = "Services:".toList then { d with enServicios := true }
  else if d.enServicios then
    if esPrefijo "- ".toList linea && contieneSub " (".toList linea && esSufijo [')'] linea then
      let texto := linea.drop 2
      if texto.contains '(' then
        let partes := rsplitParen texto
        let descr := pyStrip partes.1
        let fechaTxt := pyStrip partes.2.dropLast
        match strptimeYMD fechaTxt with
        | some dt => { d with services := d.services ++ [⟨descr, dt⟩] }
        | none => d
      else d
    else d
  else if linea.contains ':' then
    let key := claveAntes linea
    let value := valorTras linea
    if key = "Name".toList then { d with name := some value }
    else if key = "Client_ID".toList then { d with client_id := some value }
    else if key = "Phone".toList then { d with phone := some value }
    else if key = "Email".toList then { d with email := some value }
    else if key = "RegistrationDate".toList then
      { d with registration := some ((strptimeYMD value).getD now) }
    else d
  else d

/-- The empty English parse state. -/
def parseInicialE : ParseE :=
  { name := none, phone := none, email := none, client_id := none,
    registration := none, services := [], enServicios := false }

/-- `Client.from_file_content`: strip, split into lines, run the loop; fail
when `Name`, `Phone` or `Email` is absent; an absent or empty `Client_ID` is
regenerated and an absent `RegistrationDate` defaults to the current time.
No field format is re-validated. -/
def fromFileContent (contenido : Str) (now : DateTime) : Except AxErr Client :=
  let lineas := (pyStrip contenido).splitOn '\n'
  let d := lineas.foldl (pasoParseE now) parseInicialE
  match d.name, d.phone, d.email with
  | some n, some p, some e =>
    .ok { name := n, phone := p, email := e, services := d.services,
          client_id :=
            match d.client_id with
            | some id => if id = [] then generateClientIdE n (fmtTs now) else id
            | none => generateClientIdE n (fmtTs now),
          registration_date := d.registration.getD now }
  | _, _, _ => .error (.errorValidacion "required_field".toList)

/-- The state of `services.ClientManager`: the in-memory cache and the files
on disk. -/
structure StateE : Type where
  cache : List (Str × Client)
  disk : List (Str × Str)

/-- `ClientManager.create_client`: build and validate the client, append the
first service, check cache then disk for the key, write the file, then
insert into the cache (`writeOk` models the write outcome; a failed write
raises before the cache insertion). -/
def createClientE (st : StateE) (name phone email firstService : Str) (now : DateTime)
    (writeOk : Bool) : StateE × Except AxErr Client :=
  let c0 := mkClientE name phone email now
  match validateE c0 with
  | .error e => (st, .error e)
  | .ok _ =>
    match addServiceE c0 firstService now with
    | .error e => (st, .error e)
    | .ok c1 =>
      let k := normalizedNameE c1.name
      if (buscaA st.cache k).isSome then (st, .error .clienteExiste)
      else if (buscaA st.disk k).isSome then (st, .error .clienteExiste)
      else if writeOk then
        ({ cache := insertA st.cache k c1,
           disk := insertA st.disk k (toFileFormat c1) }, .ok c1)
      else (st, .error .errorArchivo)

/-- `ClientManager.get_client`: normalize the name and look it up in the
cache only — a miss raises `ClientNotFoundError`; the disk is never
consulted. -/
def getClientE (st : StateE) (name : Str) : Except AxErr Client :=
  match buscaA st.cache (normalizedNameE name) with
  | some c => .ok c
  | none => .error .clienteNoEncontrado

/-- `ClientManager.update_client`: resolve through `get_client`, append the
service (mutating the cached object in place, i.e. updating the entry at the
lookup key), and overwrite the file named by the client's own normalized
name. -/
def updateClientE (st : StateE) (name description : Str) (now : DateTime) :
    StateE × Except AxErr Client :=
  match getClientE st name with
  | .error e => (st, .error e)
  | .ok c =>
    match addServiceE c description now with
    | .error e => (st, .error e)
    | .ok c' =>
      ({ cache := insertA st.cache (normalizedNameE name) c',
         disk := insertA st.disk (normalizedNameE c'.name) (toFileFormat c') }, .ok c')

/-- Ordering on client names: Python string `<=` (code-point lexicographic). -/
def lexLe : Str → Str → Bool
  | [], _ => true
  | _ :: _, [] => false
  | a :: as, b :: bs => a < b || (a == b && lexLe as bs)

/-- Stable insertion placing `x` after every element `y` with `le y x`. -/
def insDespues {α : Type} (le : α → α → Bool) (x : α) : List α → List α
  | [] => [x]
  | y :: ys => if le y x then y :: insDespues le x ys else x :: y :: ys

/-- `list.sort(key=lambda c: c.name)`: a stable sort by name. -/
def ordenaPorNombre (l : List Client) : List Client :=
  l.foldl (fun acc c => insDespues (fun a b => lexLe a.name b.name) c acc) []

/-- `ClientManager.search_clients`: lower and strip the query, keep the
cached clients whose lowered name, lowered email or phone contains it, then
sort by name. -/
def searchClientsE (st : StateE) (query : Str) : List Client :=
  let q := pyStrip (pyLower query)
  let ms := (st.cache.map Prod.snd).filter fun c =>
    contieneSub q (pyLower c.name) || contieneSub q (pyLower c.email) || contieneSub q c.phone
  ordenaPorNombre ms

/-! ## Definitions modelled from the spec's words, for comparison -/

/-- Modelled from the spec: transliterate the seven accented letters
á é í ó ú ñ ç to a e i o u n c; every other character is unchanged. -/
def translitChar (c : Char) : Char :=
  if c = 'á' then 'a' else if c = 'é' then 'e' else if c = 'í' then 'i'
  else if c = 'ó' then 'o' else if c = 'ú' then 'u' else if c = 'ñ' then 'n'
  else if c = 'ç' then 'c' else c

/-- Modelled from the claim (C1) as stated: trim, lower-case, transliterate,
replace each maximal whitespace run by a single underscore, drop every
remaining character outside `[a-z0-9_]`. -/
def claimNormalize (s : Str) : Str :=
  (subEspacios false (((pyStrip s).map pyLowerChar).map translitChar)).filter esClaveChar

/-- The amendment of the claimed pipeline that matches `modelos.py`: each
space character (not each whitespace run) becomes one underscore; other
whitespace is not replaced and falls to the final filter. -/
def claimNormalizeCadaEspacio (s : Str) : Str :=
  ((((pyStrip s).map pyLowerChar).map translitChar).map
    (fun c => if c = ' ' then '_' else c)).filter esClaveChar

/-- The amendment of the claimed pipeline that matches `models.py` and
`axanet_client_manager.py`: trim, lower-case and join the whitespace-separated
words with single underscores — no transliteration and no dropping. -/
def claimNormalizeSoloEspacios (s : Str) : Str :=
  List.intercalate ['_'] (palabras (pyLower (pyStrip s)))

/-- Modelled from the claim (C8): the upper-cased first letters of at most
the first two words, padded from the name's first two characters to two
letters when shorter. -/
def inicialesDe (n : Str) : Str :=
  let letras := (((palabras n).take 2).filterMap (fun w => w.head?)).map pyUpperChar
  if letras.length < 2 then (letras ++ (n.take 2).map pyUpperChar).take 2 else letras

/-- The shape invariants that `decode ∘ encode` needs of a record under the
Spanish codec: every textual field is stripped and newline-free, the name has
length ≥ 2, the phone is ten digits, the email matches the pattern, the id
and registration date are nonempty, there is at least one service, and every
service has a stripped newline-free description and a nonempty timestamp
containing no parenthesis or newline. -/
def Almacenable (c : Cliente) : Prop :=
  pyStrip c.nombre = c.nombre ∧ 2 ≤ c.nombre.length ∧ '\n' ∉ c.nombre ∧
  c.telefono.all esDigito = true ∧ c.telefono.length = 10 ∧
  emailOk c.email = true ∧ pyStrip c.email = c.email ∧ '\n' ∉ c.email ∧
  pyStrip c.id_cliente = c.id_cliente ∧ c.id_cliente ≠ [] ∧ '\n' ∉ c.id_cliente ∧
  pyStrip c.fecha_registro = c.fecha_registro ∧ c.fecha_registro ≠ [] ∧
  '\n' ∉ c.fecha_registro ∧
  c.servicios ≠ [] ∧
  ∀ s ∈ c.servicios,
    pyStrip s.descripcion = s.descripcion ∧ '\n' ∉ s.descripcion ∧
    s.fecha_solicitud ≠ [] ∧ '\n' ∉ s.fecha_solicitud ∧
    '(' ∉ s.fecha_solicitud ∧ ')' ∉ s.fecha_solicitud

instance (c : Cliente) : Decidable (Almacenable c) := by
  unfold Almacenable; infer_instance

/-! ## Concrete values used by witnesses and counterexamples -/

/-- A store-shaped record under the Spanish model. -/
def clienteEj : Cliente :=
  { nombre := "Ana Garcia".toList, telefono := "5551234567".toList,
    email := "ana@x.com".toList, id_cliente := "AG_20241022143045".toList,
    fecha_registro := "2024-10-22".toList,
    servicios := [⟨"Install router".toList, "2024-10-22 14:30:45".toList⟩] }

/-- A store-shaped record under the English model, created at 14:30:45. -/
def clientEj : Client :=
  { name := "Ana Garcia".toList, phone := "555-123-4567".toList,
    email := "ana@x.com".toList,
    services := [⟨"Install router".toList, ⟨2024, 10, 22, 14, 30, 45⟩⟩],
    client_id := "AG_20241022143045".toList,
    registration_date := ⟨2024, 10, 22, 14, 30, 45⟩ }

/-- What the English codec reconstructs from `clientEj`'s file: both
timestamps truncated to midnight. -/
def clientEjTrunc : Client :=
  { name := "Ana Garcia".toList, phone := "555-123-4567".toList,
    email := "ana@x.com".toList,
    services := [⟨"Install router".toList, ⟨2024, 10, 22, 0, 0, 0⟩⟩],
    client_id := "AG_20241022143045".toList,
    registration_date := ⟨2024, 10, 22, 0, 0, 0⟩ }

/-- A decode-time clock value. -/
def nowEj : DateTime := ⟨2025, 1, 1, 0, 0, 0⟩

/-- The store state after `crear_cliente("Ana Garcia", "555-123-4567",
"ana@x.com", "Install router")` from the empty state. -/
def estadoC3 : EstadoS :=
  (crearCliente ⟨[], []⟩ "Ana Garcia".toList "555-123-4567".toList "ana@x.com".toList
    "Install router".toList "2024-10-22".toList "20241022143045".toList
    "2024-10-22 14:30:45".toList true).1

/-- The record the second `crear_cliente` call of the C3 scenario creates. -/
def clienteC3b : Cliente :=
  { nombre := "ANA   GARCIA".toList, telefono := "5551234567".toList,
    email := "ana@x.com".toList, id_cliente := "AG_20241022143050".toList,
    fecha_registro := "2024-10-22".toList,
    servicios := [⟨"Install router".toList, "2024-10-22 14:30:50".toList⟩] }

/-- An English-manager state whose disk holds a file that the cache does not. -/
def stateC4 : StateE := ⟨[], [("ana_garcia".toList, toFileFormat clientEj)]⟩

/-- A structurally complete Spanish file whose phone is not ten digits. -/
def contenidoC6 : Str :=
  ("Nombre: Ana Garcia\nID_Cliente: X1\nTelefono: 123\nCorreo: ana@x.com\n" ++
   "FechaRegistro: 2024-01-01\nServicios:\n- Inst (2024-01-01 10:00:00)").toList

/-- An English file whose service line has no parenthesized timestamp. -/
def contenidoC7 : Str :=
  "Name: Ana\nPhone: 5551234567\nEmail: a@b.com\nServices:\n- Install router".toList

/-- What the English codec decodes `contenidoC7` to: the service line is
dropped. -/
def clientC7 : Client :=
  { name := "Ana".toList, phone := "5551234567".toList, email := "a@b.com".toList,
    services := [],
    client_id := "A_20250101000000".toList,
    registration_date := nowEj }

/-- An English-manager state containing `clientEj` in cache and on disk. -/
def stateEj : StateE :=
  ⟨[("ana_garcia".toList, clientEj)], [("ana_garcia".toList, toFileFormat clientEj)]⟩

/-- A Spanish-manager state containing `clienteEj` in cache and on disk. -/
def estadoEj : EstadoS :=
  ⟨[("ana_garcia".toList, clienteEj)], [("ana_garcia".toList, aFormatoArchivo clienteEj)]⟩

/-- A Spanish-manager state whose disk holds a record the cache does not. -/
def estadoDisco : EstadoS := ⟨[], [("ana_garcia".toList, aFormatoArchivo clienteEj)]⟩

/-! ## Helper lemmas about the string primitives -/

theorem lstrip_cons_no {c : Char} (t : Str) (h : esEspacio c = false) :
    lstrip (c :: t) = c :: t := by
  simp [lstrip, List.dropWhile_cons, h]

theorem lstrip_cons_si {c : Char} (t : Str) (h : esEspacio c = true) :
    lstrip (c :: t) = lstrip t := by
  simp [lstrip, List.dropWhile_cons, h]

theorem rstrip_append_no {c : Char} (s : Str) (h : esEspacio c = false) :
    rstrip (s ++ [c]) = s ++ [c] := by
  simp [rstrip, List.dropWhile_cons, h]

theorem rstrip_append_si {c : Char} (s : Str) (h : esEspacio c = true) :
    rstrip (s ++ [c]) = rstrip s := by
  simp [rstrip, List.dropWhile_cons, h]

theorem pyStrip_cons_espacio {c : Char} (t : Str) (h : esEspacio c = true) :
    pyStrip (c :: t) = pyStrip t := by
  simp [pyStrip, lstrip_cons_si t h]

theorem rstrip_fixed_of_append_no {c : Char} (s : Str) (h : esEspacio c = false) :
    rstrip (s ++ [c]) = s ++ [c] := rstrip_append_no s h

theorem pyStrip_append_espacio {c : Char} (s : Str) (h : esEspacio c = true) :
    pyStrip (s ++ [c]) = pyStrip s := by
  unfold pyStrip lstrip
  rw [List.dropWhile_append]
  split
  · next he =>
    rw [List.isEmpty_iff] at he
    rw [he]
    simp [List.dropWhile_cons, h, rstrip]
  · next he =>
    exact rstrip_append_si _ h

theorem dropWhile_eq_self_of_all {p : Char → Bool} {l : Str}
    (h : ∀ c ∈ l, p c = false) : l.dropWhile p = l := by
  cases l with
  | nil => rfl
  | cons x xs => rw [List.dropWhile_cons, if_neg (by simp [h x (by simp)])]

theorem takeWhile_eq_self_of_all {p : Char → Bool} {l : Str}
    (h : ∀ c ∈ l, p c = true) : l.takeWhile p = l := by
  induction l with
  | nil => rfl
  | cons x xs ih =>
    rw [List.takeWhile_cons, if_pos (h x (by simp))]
    rw [ih (fun c hc => h c (by simp [hc]))]

theorem rstrip_append_fixed {s t : Str} (ht : rstrip t = t) (hne : t ≠ []) :
    rstrip (s ++ t) = s ++ t := by
  rcases List.eq_nil_or_concat' t with rfl | ⟨u, c, rfl⟩
  · exact absurd rfl hne
  have hc : esEspacio c = false := by
    by_contra hc2
    have hc3 : esEspacio c = true := by revert hc2; cases esEspacio c <;> simp
    rw [rstrip_append_si u hc3] at ht
    have hlen : (rstrip u).length = u.length + 1 := by rw [ht]; simp
    have hle : (rstrip u).length ≤ u.length := by
      unfold rstrip
      calc ((u.reverse.dropWhile esEspacio).reverse).length
          = (u.reverse.dropWhile esEspacio).length := by simp
        _ ≤ u.reverse.length := (List.dropWhile_sublist _).length_le
        _ = u.length := by simp
    omega
  rw [← List.append_assoc]
  exact rstrip_append_no _ hc

theorem pyStrip_fixed_cons_append {c : Char} {s t : Str} (hc : esEspacio c = false)
    (ht : rstrip t = t) (hne : t ≠ []) : pyStrip (c :: (s ++ t)) = c :: (s ++ t) := by
  unfold pyStrip
  rw [lstrip_cons_no _ hc]
  have : c :: (s ++ t) = (c :: s) ++ t := rfl
  rw [this, rstrip_append_fixed ht hne]

theorem pyStrip_eq_self_of_no_espacio {l : Str} (h : ∀ c ∈ l, esEspacio c = false) :
    pyStrip l = l := by
  unfold pyStrip lstrip rstrip
  rw [dropWhile_eq_self_of_all h]
  rw [dropWhile_eq_self_of_all (fun c hc => h c (List.mem_reverse.mp hc))]
  simp

theorem pyStrip_eq_nil_of_espacios {l : Str} (h : ∀ c ∈ l, esEspacio c = true) :
    pyStrip l = [] := by
  unfold pyStrip lstrip
  rw [List.dropWhile_eq_nil_iff.mpr h]
  rfl

theorem pyLowerChar_no_espacio (c : Char) (h : esEspacio c = false) :
    esEspacio (pyLowerChar c) = false := by
  unfold pyLowerChar
  split_ifs with h1 h2 h3 h4 h5 h6 h7 h8
  · decide
  · decide
  · decide
  · decide
  · decide
  · decide
  · decide
  · obtain ⟨ha, hb⟩ := h8
    rw [Char.le_def] at ha hb
    have ha' : 65 ≤ c.toNat := ha
    have hb' : c.toNat ≤ 90 := hb
    exact (by decide : ∀ n, n < 123 → 97 ≤ n → esEspacio (Char.ofNat n) = false)
      (c.toNat + 32) (by omega) (by omega)
  · exact h

theorem pyLowerChar_espacio (c : Char) (h : esEspacio c = true) : pyLowerChar c = c := by
  simp only [esEspacio, Bool.or_eq_true, beq_iff_eq] at h
  rcases h with ((((h | h) | h) | h) | h) | h <;> subst h <;> decide

theorem esDigito_no_espacio (c : Char) (h : esDigito c = true) : esEspacio c = false := by
  simp only [esDigito, Bool.and_eq_true, decide_eq_true_eq] at h
  obtain ⟨h1, h2⟩ := h
  rw [Char.le_def] at h1 h2
  have h1' : 48 ≤ c.toNat := h1
  have h2' : c.toNat ≤ 57 := h2
  simp only [esEspacio, Bool.or_eq_false_iff, beq_eq_false_iff_ne]
  refine ⟨⟨⟨⟨⟨?_, ?_⟩, ?_⟩, ?_⟩, ?_⟩, ?_⟩ <;>
    (rintro rfl; exact absurd h1' (by decide))

theorem pyStrip_digitos {l : Str} (h : l.all esDigito = true) : pyStrip l = l :=
  pyStrip_eq_self_of_no_espacio fun c hc =>
    esDigito_no_espacio c (List.all_eq_true.mp h c hc)

theorem no_nl_digitos {l : Str} (h : l.all esDigito = true) : '\n' ∉ l := by
  intro hm
  have := List.all_eq_true.mp h '\n' hm
  exact absurd this (by decide)

theorem uneLineas_eq_intercalate (L : List Str) : uneLineas L = ['\n'].intercalate L := by
  induction L with
  | nil => rfl
  | cons l ls ih =>
    cases ls with
    | nil => simp [uneLineas, List.intercalate]
    | cons l2 ls2 =>
      have hu : uneLineas (l :: l2 :: ls2) = l ++ '\n' :: uneLineas (l2 :: ls2) := rfl
      rw [hu, ih]
      simp only [List.intercalate, List.intersperse_cons_cons, List.flatten_cons]
      simp

theorem splitOn_uneLineas (L : List Str) (h : ∀ l ∈ L, '\n' ∉ l) (hne : L ≠ []) :
    (uneLineas L).splitOn '\n' = L := by
  rw [uneLineas_eq_intercalate]
  exact List.splitOn_intercalate L '\n' h hne

theorem contieneSub_nil (s : Str) : contieneSub [] s = true := by
  cases s <;> simp [contieneSub, esPrefijo]

theorem pyLower_espacios {q : Str} (h : ∀ c ∈ q, esEspacio c = true) : pyLower q = q := by
  unfold pyLower
  induction q with
  | nil => rfl
  | cons c cs ih =>
    rw [List.map_cons, pyLowerChar_espacio c (h c (by simp)),
      ih (fun x hx => h x (by simp [hx]))]

/-! ## C5: write-then-index ordering in create -/

/-- C5: in every execution of create (both managers), when the file write
fails the exception propagates before the cache insertion, so the store
state — in particular the in-memory index — is unchanged: the index never
references a file that failed to write. -/
theorem c5_escritura_antes_de_indice :
    (∀ (st : EstadoS) (nombre telefono email servicio hoy ts ahora : Str),
      (crearCliente st nombre telefono email servicio hoy ts ahora false).1 = st) ∧
    (∀ (st : StateE) (name phone email first : Str) (now : DateTime),
      (createClientE st name phone email first now false).1 = st) := by
  constructor
  · intro st nombre telefono email servicio hoy ts ahora
    unfold crearCliente
    cases mkCliente nombre telefono email hoy with
    | error e => rfl
    | ok c0 =>
      simp only
      split
      · rfl
      · split
        · rfl
        · cases agregarServicio { c0 with id_cliente := generarIdCliente c0.nombre ts }
            servicio ahora with
          | error e => rfl
          | ok c2 => rfl
  · intro st name phone email first now
    unfold createClientE
    dsimp only
    cases validateE (mkClientE name phone email now) with
    | error e => rfl
    | ok u =>
      dsimp only
      cases addServiceE (mkClientE name phone email now) first now with
      | error e => rfl
      | ok c1 =>
        dsimp only
        split
        · rfl
        · split
          · rfl
          · rfl

/-! ## C9: update appends exactly one service -/

/-- C9: for every state, every name resolving to a cached record and every
description that is non-empty after trimming, `update_client` returns the
record with exactly one service appended at the end; all prior services and
all identity fields are unchanged. -/
theorem c9_update_agrega_un_servicio :
    ∀ (st : StateE) (name desc : Str) (now : DateTime) (c : Client),
      buscaA st.cache (normalizedNameE name) = some c →
      pyStrip desc ≠ [] →
      (updateClientE st name desc now).2 =
        .ok { c with services := c.services ++ [⟨pyStrip desc, now⟩] } ∧
      ∀ c', (updateClientE st name desc now).2 = .ok c' →
        c'.name = c.name ∧ c'.phone = c.phone ∧ c'.email = c.email ∧
        c'.client_id = c.client_id ∧ c'.registration_date = c.registration_date ∧
        c'.services.length = c.services.length + 1 ∧
        c'.services.take c.services.length = c.services ∧
        c'.services.getLast? = some ⟨pyStrip desc, now⟩ := by
  intro st name desc now c hc hdesc
  have hrun : (updateClientE st name desc now).2 =
      .ok { c with services := c.services ++ [⟨pyStrip desc, now⟩] } := by
    unfold updateClientE getClientE
    rw [hc]
    simp only [addServiceE, if_neg hdesc]
  refine ⟨hrun, ?_⟩
  intro c' hc'
  rw [hrun] at hc'
  have hc2 := Except.ok.inj hc'
  subst hc2
  refine ⟨rfl, rfl, rfl, rfl, rfl, by simp, ?_, ?_⟩
  · exact List.take_left' rfl
  · simp

/-- Witness for C9 at a concrete state and description. -/
theorem c9_witness :
    (updateClientE stateEj "ana garcia".toList " Replace modem ".toList nowEj).2 =
      .ok { clientEj with
              services := clientEj.services ++ [⟨"Replace modem".toList, nowEj⟩] } :=
  (c9_update_agrega_un_servicio stateEj "ana garcia".toList " Replace modem ".toList
    nowEj clientEj (by decide) (by decide)).1

/-! ## C10: the empty query matches every record -/

/-- C10: for every state, searching with an empty or whitespace-only query
returns every record in the index, sorted by display name. -/
theorem c10_consulta_vacia_devuelve_todo :
    ∀ (st : StateE) (q : Str), (∀ c ∈ q, esEspacio c = true) →
      searchClientsE st q = ordenaPorNombre (st.cache.map Prod.snd) := by
  intro st q hq
  unfold searchClientsE
  rw [pyLower_espacios hq, pyStrip_eq_nil_of_espacios hq]
  dsimp only
  congr 1
  apply List.filter_eq_self.mpr
  intro c hc
  simp [contieneSub_nil]

/-- Witness for C10: a whitespace query on a one-record store returns that
record. -/
theorem c10_witness :
    searchClientsE stateEj "  ".toList =
      ordenaPorNombre (stateEj.cache.map Prod.snd) :=
  c10_consulta_vacia_devuelve_todo stateEj "  ".toList (by decide)

/-! ## Helper lemmas about lines, prefixes and header parsing -/

theorem pyStrip_fixed_parts {s : Str} (h : pyStrip s = s) : lstrip s = s ∧ rstrip s = s := by
  have hsub : List.Sublist (lstrip s) s := List.dropWhile_sublist _
  have hlen1 : (pyStrip s).length ≤ (lstrip s).length := by
    unfold pyStrip rstrip
    calc ((lstrip s).reverse.dropWhile esEspacio).reverse.length
        = ((lstrip s).reverse.dropWhile esEspacio).length := by simp
      _ ≤ (lstrip s).reverse.length := (List.dropWhile_sublist _).length_le
      _ = (lstrip s).length := by simp
  have hlen2 : (lstrip s).length ≤ s.length := hsub.length_le
  have heq : (lstrip s).length = s.length := by rw [h] at hlen1; omega
  have hls : lstrip s = s := hsub.eq_of_length heq
  refine ⟨hls, ?_⟩
  show rstrip s = s
  conv_lhs => rw [← hls]
  exact h

theorem head_no_espacio_of_lstrip {c : Char} {rest : Str}
    (h : lstrip (c :: rest) = c :: rest) : esEspacio c = false := by
  by_contra h2
  have h3 : esEspacio c = true := by revert h2; cases esEspacio c <;> simp
  rw [lstrip_cons_si rest h3] at h
  have : (lstrip rest).length ≤ rest.length := (List.dropWhile_sublist _).length_le
  have : (lstrip rest).length = rest.length + 1 := by rw [h]; simp
  omega

theorem uneLineas_ne_nil (L : List Str) (l : Str) (hne : l ≠ []) :
    uneLineas (L ++ [l]) ≠ [] := by
  cases L with
  | nil => exact hne
  | cons a L' =>
    have hu : uneLineas ((a :: L') ++ [l]) = a ++ '\n' :: uneLineas (L' ++ [l]) := by
      cases L' <;> rfl
    rw [hu]
    simp

theorem rstrip_uneLineas_concat (L : List Str) (l : Str) (hl : rstrip l = l)
    (hne : l ≠ []) : rstrip (uneLineas (L ++ [l])) = uneLineas (L ++ [l]) := by
  induction L with
  | nil => exact hl
  | cons a L' ih =>
    have hu : uneLineas ((a :: L') ++ [l]) = a ++ '\n' :: uneLineas (L' ++ [l]) := by
      cases L' <;> rfl
    rw [hu]
    have h1 : a ++ '\n' :: uneLineas (L' ++ [l]) =
        a ++ ('\n' :: uneLineas (L' ++ [l])) := rfl
    rw [h1]
    apply rstrip_append_fixed
    · have h2 : '\n' :: uneLineas (L' ++ [l]) = ['\n'] ++ uneLineas (L' ++ [l]) := rfl
      rw [h2]
      exact rstrip_append_fixed ih (uneLineas_ne_nil L' l hne)
    · simp

theorem pyStrip_uneLineas_fixed {c : Char} (t : Str) (L : List Str) (l : Str)
    (hc : esEspacio c = false) (hl : rstrip l = l) (hne : l ≠ []) :
    pyStrip (uneLineas ((c :: t) :: (L ++ [l]))) = uneLineas ((c :: t) :: (L ++ [l])) := by
  have hu : uneLineas ((c :: t) :: (L ++ [l])) =
      (c :: t) ++ '\n' :: uneLineas (L ++ [l]) := by
    cases L <;> rfl
  rw [hu]
  unfold pyStrip
  have hshape : (c :: t) ++ '\n' :: uneLineas (L ++ [l]) =
      c :: (t ++ '\n' :: uneLineas (L ++ [l])) := rfl
  rw [hshape, lstrip_cons_no _ hc]
  have hshape2 : c :: (t ++ '\n' :: uneLineas (L ++ [l])) =
      (c :: t ++ ['\n']) ++ uneLineas (L ++ [l]) := by simp
  rw [hshape2, rstrip_append_fixed (rstrip_uneLineas_concat L l hl hne)
    (uneLineas_ne_nil L l hne), ← hshape2]

theorem esPrefijo_append (p rest : Str) : esPrefijo p (p ++ rest) = true := by
  induction p with
  | nil => rfl
  | cons a as ih => simp [esPrefijo, ih]

theorem valorTras_header (pre v : Str) (hpre : ∀ c ∈ pre, (c == ':') = false) :
    valorTras (pre ++ ':' :: v) = pyStrip v := by
  unfold valorTras
  rw [List.dropWhile_append_of_pos (by intro a ha; simp [hpre a ha])]
  rw [List.dropWhile_cons]
  simp

theorem claveAntes_header (pre v : Str) (hpre : ∀ c ∈ pre, (c == ':') = false) :
    claveAntes (pre ++ ':' :: v) = pyStrip pre := by
  unfold claveAntes
  rw [List.takeWhile_append_of_pos (by intro a ha; simp [hpre a ha])]
  rw [List.takeWhile_cons]
  simp

theorem contains_of_mem {l : Str} {a : Char} (h : a ∈ l) : l.contains a = true := by
  simp [List.contains, h]

/-! ## Closed counterexamples for the corrected claims -/

/-- C1 counterexample: the claimed pipeline (whitespace runs collapse to one
underscore, accents transliterated, other characters dropped) disagrees with
both source normalizers: `modelos.py` turns the two spaces of `"a  b"` into
two underscores, and `models.py`/`axanet_client_manager.py` neither
transliterates the í of `"María"` nor restricts to `[a-z0-9_]`. -/
theorem c1_counterexample :
    nombreNormalizado (pyStrip "a  b".toList) ≠ claimNormalize "a  b".toList ∧
    normalizedNameE "María".toList ≠ claimNormalize "María".toList ∧
    nombreNormalizado (pyStrip "a  b".toList) = "a__b".toList ∧
    claimNormalize "a  b".toList = "a_b".toList ∧
    normalizedNameE "María".toList = "maría".toList ∧
    claimNormalize "María".toList = "maria".toList := by
  refine ⟨?_, ?_, ?_, ?_, ?_, ?_⟩ <;> decide

/-- C2 counterexample: under the English codec a record created at 14:30:45
does not round-trip — the decoded record carries both timestamps truncated
to midnight, so it differs from the original. -/
theorem c2_counterexample :
    fromFileContent (toFileFormat clientEj) nowEj = .ok clientEjTrunc ∧
    clientEjTrunc ≠ clientEj := by
  constructor <;> decide

/-- C3 counterexample: `"Ana Garcia"` and `"  ANA   GARCIA  "` do not map to
the same key under `modelos.py` (the runs of spaces become runs of
underscores), so the second create succeeds instead of failing with
`AlreadyExists`. -/
theorem c3_counterexample :
    claveDe "Ana Garcia".toList = "ana_garcia".toList ∧
    claveDe "  ANA   GARCIA  ".toList = "ana___garcia".toList ∧
    (crearCliente estadoC3 "  ANA   GARCIA  ".toList "555-123-4567".toList
      "ana@x.com".toList "Install router".toList "2024-10-22".toList
      "20241022143050".toList "2024-10-22 14:30:50".toList true).2 =
      .ok clienteC3b := by
  refine ⟨?_, ?_, ?_⟩ <;> decide

/-- C4 counterexample: `services.py`'s `get_client` consults only the cache;
with the record's file present on disk but absent from the cache it raises
`NotFound` instead of loading, inserting and returning the record. -/
theorem c4_counterexample :
    buscaA stateC4.disk "ana_garcia".toList = some (toFileFormat clientEj) ∧
    getClientE stateC4 "Ana Garcia".toList = .error .clienteNoEncontrado := by
  constructor <;> decide

/-- C6 counterexample: the Spanish decoder runs the full field validation, so
a structurally complete file whose `Telefono` is `123` is rejected with a
phone validation error instead of decoding. -/
theorem c6_counterexample :
    desdeArchivo contenidoC6 "2025-01-01 00:00:00".toList =
      .error (.errorValidacion "telefono".toList) := by
  decide

/-- C7 counterexample: the English decoder drops a `- ` service line that has
no parenthesized timestamp — the decode succeeds but produces no service
entry for that line. -/
theorem c7_counterexample :
    fromFileContent contenidoC7 nowEj = .ok clientC7 ∧ clientC7.services = [] := by
  constructor <;> decide

/-- C8 counterexample: the English id generator takes the initial of every
word, so `"Ana Garcia Lopez"` yields three initials `AGL`, not the claimed
at-most-two-word initials `AG`. -/
theorem c8_counterexample :
    generateClientIdE "Ana Garcia Lopez".toList "20241022143045".toList =
      "AGL_20241022143045".toList ∧
    generateClientIdE "Ana Garcia Lopez".toList "20241022143045".toList ≠
      inicialesDe (pyStrip "Ana Garcia Lopez".toList) ++ '_' :: "20241022143045".toList := by
  constructor <;> decide

/-! ## C6 amended: the English decoder is structural, the Spanish one re-validates -/

/-- C6 (amended to `models.py`): the English decoder never re-checks field
formats — a structurally complete text decodes successfully for every
newline-free stripped `Phone` and `Email` value, whatever their shape, and
the decoded record carries those values verbatim. -/
theorem c6_decodificacion_estructural :
    ∀ (phone email : Str) (now : DateTime),
      '\n' ∉ phone → '\n' ∉ email → pyStrip phone = phone → pyStrip email = email →
      phone ≠ [] → email ≠ [] →
      fromFileContent (uneLineas
        [ "Name: Ana Garcia".toList, "Phone: ".toList ++ phone,
          "Email: ".toList ++ email, "Services:".toList ]) now =
      .ok { name := "Ana Garcia".toList, phone := phone, email := email,
            services := [],
            client_id := generateClientIdE "Ana Garcia".toList (fmtTs now),
            registration_date := now } := by
  intro phone email now hnp hnm hsp hse hpne hene
  unfold fromFileContent
  have hfix : pyStrip (uneLineas
      [ "Name: Ana Garcia".toList, "Phone: ".toList ++ phone,
        "Email: ".toList ++ email, "Services:".toList ]) = uneLineas
      [ "Name: Ana Garcia".toList, "Phone: ".toList ++ phone,
        "Email: ".toList ++ email, "Services:".toList ] := by
    have hsh : [ "Name: Ana Garcia".toList, "Phone: ".toList ++ phone,
        "Email: ".toList ++ email, "Services:".toList ] =
        ('N' :: "ame: Ana Garcia".toList) ::
          ([ "Phone: ".toList ++ phone, "Email: ".toList ++ email ] ++
            ["Services:".toList]) := rfl
    rw [hsh]
    exact pyStrip_uneLineas_fixed _ _ _ (by decide) (by decide) (by decide)
  rw [hfix]
  rw [splitOn_uneLineas _ ?hnl ?hne]
  case hnl =>
    intro l hl
    simp only [List.mem_cons, List.not_mem_nil, or_false] at hl
    rcases hl with rfl | rfl | rfl | rfl
    · decide
    · simp only [List.mem_append]
      rintro (h | h)
      · revert h; decide
      · exact hnp h
    · simp only [List.mem_append]
      rintro (h | h)
      · revert h; decide
      · exact hnm h
    · decide
  case hne => simp
  dsimp only
  rw [List.foldl_cons, List.foldl_cons, List.foldl_cons, List.foldl_cons, List.foldl_nil]
  have s1 : pasoParseE now parseInicialE "Name: Ana Garcia".toList =
      { parseInicialE with name := some "Ana Garcia".toList } := rfl
  rw [s1]
  have s2 : pasoParseE now { parseInicialE with name := some "Ana Garcia".toList }
      ("Phone: ".toList ++ phone) =
      { parseInicialE with name := some "Ana Garcia".toList, phone := some phone } := by
    unfold pasoParseE
    have hline : pyStrip ("Phone: ".toList ++ phone) = "Phone: ".toList ++ phone := by
      rw [show "Phone: ".toList ++ phone = 'P' :: ("hone: ".toList ++ phone) from rfl]
      unfold pyStrip
      rw [lstrip_cons_no _ (by decide)]
      rw [show 'P' :: ("hone: ".toList ++ phone) =
        ('P' :: "hone: ".toList) ++ phone from rfl]
      rw [rstrip_append_fixed (pyStrip_fixed_parts hsp).2 hpne]
    rw [hline]
    rw [if_neg (by simp : ¬("Phone: ".toList ++ phone = "Services:".toList))]
    rw [if_neg (by decide : ¬(({ parseInicialE with
      name := some "Ana Garcia".toList } : ParseE).enServicios = true))]
    rw [if_pos (contains_of_mem (by simp : ':' ∈ "Phone: ".toList ++ phone))]
    have hk : claveAntes ("Phone: ".toList ++ phone) = "Phone".toList := by
      rw [show "Phone: ".toList ++ phone = "Phone".toList ++ ':' :: (' ' :: phone) from rfl]
      rw [claveAntes_header _ _ (by decide)]
      decide
    have hv : valorTras ("Phone: ".toList ++ phone) = phone := by
      rw [show "Phone: ".toList ++ phone = "Phone".toList ++ ':' :: (' ' :: phone) from rfl]
      rw [valorTras_header _ _ (by decide)]
      rw [pyStrip_cons_espacio _ (by decide)]
      exact hsp
    rw [hk, hv]
    rw [if_neg (by decide : ¬("Phone".toList = "Name".toList))]
    rw [if_neg (by decide : ¬("Phone".toList = "Client_ID".toList))]
    rw [if_pos (rfl : "Phone".toList = "Phone".toList)]
  rw [s2]
  have s3 : pasoParseE now
      { parseInicialE with name := some "Ana Garcia".toList, phone := some phone }
      ("Email: ".toList ++ email) =
      { parseInicialE with
          name := some "Ana Garcia".toList
          phone := some phone
          email := some email } := by
    unfold pasoParseE
    have hline : pyStrip ("Email: ".toList ++ email) = "Email: ".toList ++ email := by
      rw [show "Email: ".toList ++ email = 'E' :: ("mail: ".toList ++ email) from rfl]
      unfold pyStrip
      rw [lstrip_cons_no _ (by decide)]
      rw [show 'E' :: ("mail: ".toList ++ email) =
        ('E' :: "mail: ".toList) ++ email from rfl]
      rw [rstrip_append_fixed (pyStrip_fixed_parts hse).2 hene]
    rw [hline]
    rw [if_neg (by simp : ¬("Email: ".toList ++ email = "Services:".toList))]
    rw [if_neg (by simp [parseInicialE] : ¬(({ parseInicialE with
          name := some "Ana Garcia".toList
          phone := some phone } : ParseE).enServicios = true))]
    rw [if_pos (contains_of_mem (by simp : ':' ∈ "Email: ".toList ++ email))]
    have hk : claveAntes ("Email: ".toList ++ email) = "Email".toList := by
      rw [show "Email: ".toList ++ email = "Email".toList ++ ':' :: (' ' :: email) from rfl]
      rw [claveAntes_header _ _ (by decide)]
      decide
    have hv : valorTras ("Email: ".toList ++ email) = email := by
      rw [show "Email: ".toList ++ email = "Email".toList ++ ':' :: (' ' :: email) from rfl]
      rw [valorTras_header _ _ (by decide)]
      rw [pyStrip_cons_espacio _ (by decide)]
      exact hse
    rw [hk, hv]
    rw [if_neg (by decide : ¬("Email".toList = "Name".toList))]
    rw [if_neg (by decide : ¬("Email".toList = "Client_ID".toList))]
    rw [if_neg (by decide : ¬("Email".toList = "Phone".toList))]
    rw [if_pos (rfl : "Email".toList = "Email".toList)]
  rw [s3]
  have s4 : pasoParseE now
      { parseInicialE with
          name := some "Ana Garcia".toList
          phone := some phone
          email := some email } "Services:".toList =
      { parseInicialE with
          name := some "Ana Garcia".toList
          phone := some phone
          email := some email
          enServicios := true } := rfl
  rw [s4]
  rfl

/-- Witness for C6: a ten-digit rule violation (`123`) and a patternless
email (`bad-email`) still decode under the English codec. -/
theorem c6_witness :
    fromFileContent (uneLineas
      [ "Name: Ana Garcia".toList, "Phone: ".toList ++ "123".toList,
        "Email: ".toList ++ "bad-email".toList, "Services:".toList ]) nowEj =
    .ok { name := "Ana Garcia".toList, phone := "123".toList,
          email := "bad-email".toList, services := [],
          client_id := generateClientIdE "Ana Garcia".toList (fmtTs nowEj),
          registration_date := nowEj } :=
  c6_decodificacion_estructural "123".toList "bad-email".toList nowEj
    (by decide) (by decide) (by decide) (by decide) (by decide) (by decide)

/-! ## C7 amended: paren-less service lines under the Spanish decoder -/

theorem contains_of_not_mem {l : Str} {a : Char} (h : a ∉ l) : l.contains a = false := by
  simp [List.contains, h]

theorem rstripParen_append (fecha : Str) (hf : ')' ∉ fecha) :
    rstripParen (fecha ++ [')']) = fecha := by
  unfold rstripParen
  rw [List.reverse_append]
  show ((')' :: fecha.reverse).dropWhile (fun c => c == ')')).reverse = fecha
  rw [List.dropWhile_cons]
  simp only [beq_self_eq_true, if_pos]
  rw [dropWhile_eq_self_of_all (by
    intro c hc
    simp only [beq_eq_false_iff_ne]
    intro h2
    exact hf (h2 ▸ List.mem_reverse.mp hc))]
  simp

/-- A `- ` line with no parenthesis, seen inside the services section of the
Spanish parser: the entry is kept with no timestamp. -/
theorem pasoParse_servicio_sin_parens (d : DatosParse) (desc : Str)
    (hsec : d.seccion = true) (hdesc : pyStrip desc = desc) (hne : desc ≠ [])
    (hpar : '(' ∉ desc) :
    pasoParse d ("- ".toList ++ desc) = { d with servicios := d.servicios ++ [(desc, none)] } := by
  unfold pasoParse
  have hline : pyStrip ("- ".toList ++ desc) = "- ".toList ++ desc := by
    show pyStrip ('-' :: ([' '] ++ desc)) = '-' :: ([' '] ++ desc)
    exact pyStrip_fixed_cons_append (by decide) (pyStrip_fixed_parts hdesc).2 hne
  rw [hline]
  rw [if_neg (by simp [esPrefijo] : ¬(esPrefijo "Nombre:".toList ("- ".toList ++ desc) = true))]
  rw [if_neg (by simp [esPrefijo] : ¬(esPrefijo "ID_Cliente:".toList ("- ".toList ++ desc) = true))]
  rw [if_neg (by simp [esPrefijo] : ¬(esPrefijo "Telefono:".toList ("- ".toList ++ desc) = true))]
  rw [if_neg (by simp [esPrefijo] : ¬(esPrefijo "Correo:".toList ("- ".toList ++ desc) = true))]
  rw [if_neg (by simp [esPrefijo] :
    ¬(esPrefijo "FechaRegistro:".toList ("- ".toList ++ desc) = true))]
  rw [if_neg (by simp : ¬("- ".toList ++ desc = "Servicios:".toList))]
  rw [if_pos (by simp [hsec, esPrefijo] :
    (d.seccion && esPrefijo "- ".toList ("- ".toList ++ desc)) = true)]
  have hdrop : ("- ".toList ++ desc).drop 2 = desc := rfl
  rw [hdrop]
  dsimp only
  rw [contains_of_not_mem hpar]
  simp

/-- C7 (amended to `modelos.py`): a service line with no parenthesized
timestamp still produces exactly one entry — its description is the line's
text and its timestamp is regenerated as the current time by
`Servicio.__init__` (not left missing or empty). -/
theorem c7_amended :
    ∀ (desc ahora : Str), pyStrip desc = desc → desc ≠ [] → '\n' ∉ desc → '(' ∉ desc →
      desdeArchivo (uneLineas
        [ "Nombre: Ana Garcia".toList, "Telefono: 5551234567".toList,
          "Correo: ana@x.com".toList, "Servicios:".toList, "- ".toList ++ desc ]) ahora =
      .ok { nombre := "Ana Garcia".toList, telefono := "5551234567".toList,
            email := "ana@x.com".toList, id_cliente := [], fecha_registro := [],
            servicios := [⟨desc, ahora⟩] } := by
  intro desc ahora hdesc hne hnl hpar
  unfold desdeArchivo
  have hultima : rstrip ("- ".toList ++ desc) = "- ".toList ++ desc := by
    show rstrip ('-' :: [' '] ++ desc) = '-' :: [' '] ++ desc
    exact rstrip_append_fixed (pyStrip_fixed_parts hdesc).2 hne
  have hfix : pyStrip (uneLineas
      [ "Nombre: Ana Garcia".toList, "Telefono: 5551234567".toList,
        "Correo: ana@x.com".toList, "Servicios:".toList, "- ".toList ++ desc ]) = uneLineas
      [ "Nombre: Ana Garcia".toList, "Telefono: 5551234567".toList,
        "Correo: ana@x.com".toList, "Servicios:".toList, "- ".toList ++ desc ] := by
    have hsh : [ "Nombre: Ana Garcia".toList, "Telefono: 5551234567".toList,
        "Correo: ana@x.com".toList, "Servicios:".toList, "- ".toList ++ desc ] =
        ('N' :: "ombre: Ana Garcia".toList) ::
          ([ "Telefono: 5551234567".toList, "Correo: ana@x.com".toList,
             "Servicios:".toList ] ++ ["- ".toList ++ desc]) := rfl
    rw [hsh]
    exact pyStrip_uneLineas_fixed _ _ _ (by decide) hultima (by simp)
  rw [hfix]
  rw [splitOn_uneLineas _ ?hnl2 ?hne2]
  case hnl2 =>
    intro l hl
    simp only [List.mem_cons, List.not_mem_nil, or_false] at hl
    rcases hl with rfl | rfl | rfl | rfl | rfl
    · decide
    · decide
    · decide
    · decide
    · simp only [List.mem_append]
      rintro (h | h)
      · revert h; decide
      · exact hnl h
  case hne2 => simp
  dsimp only
  rw [List.foldl_cons, List.foldl_cons, List.foldl_cons, List.foldl_cons,
    List.foldl_cons, List.foldl_nil]
  have s1 : pasoParse parseInicial "Nombre: Ana Garcia".toList =
      { parseInicial with nombre := "Ana Garcia".toList } := rfl
  rw [s1]
  have s2 : pasoParse { parseInicial with nombre := "Ana Garcia".toList }
      "Telefono: 5551234567".toList =
      { parseInicial with
          nombre := "Ana Garcia".toList
          telefono := "5551234567".toList } := rfl
  rw [s2]
  have s3 : pasoParse { parseInicial with
          nombre := "Ana Garcia".toList
          telefono := "5551234567".toList } "Correo: ana@x.com".toList =
      { parseInicial with
          nombre := "Ana Garcia".toList
          telefono := "5551234567".toList
          email := "ana@x.com".toList } := rfl
  rw [s3]
  have s4 : pasoParse { parseInicial with
          nombre := "Ana Garcia".toList
          telefono := "5551234567".toList
          email := "ana@x.com".toList } "Servicios:".toList =
      { parseInicial with
          nombre := "Ana Garcia".toList
          telefono := "5551234567".toList
          email := "ana@x.com".toList
          seccion := true } := rfl
  rw [s4]
  rw [pasoParse_servicio_sin_parens _ desc rfl hdesc hne hpar]
  have hmk : mkCliente "Ana Garcia".toList "5551234567".toList "ana@x.com".toList [] =
      .ok { nombre := "Ana Garcia".toList, telefono := "5551234567".toList,
            email := "ana@x.com".toList, id_cliente := [], fecha_registro := [],
            servicios := [] } := by decide
  dsimp only
  rw [hmk]
  dsimp only
  simp [Servicio.nuevo, hdesc, parseInicial]

/-- Witness for C7 at the concrete description `Pendiente`. -/
theorem c7_witness :
    desdeArchivo (uneLineas
      [ "Nombre: Ana Garcia".toList, "Telefono: 5551234567".toList,
        "Correo: ana@x.com".toList, "Servicios:".toList,
        "- ".toList ++ "Pendiente".toList ]) "2024-10-22 14:30:45".toList =
    .ok { nombre := "Ana Garcia".toList, telefono := "5551234567".toList,
          email := "ana@x.com".toList, id_cliente := [], fecha_registro := [],
          servicios := [⟨"Pendiente".toList, "2024-10-22 14:30:45".toList⟩] } :=
  c7_amended "Pendiente".toList "2024-10-22 14:30:45".toList
    (by decide) (by decide) (by decide) (by decide)

/-! ## C8 amended: the id format of the Spanish generator -/

theorem palabras_cons_no_espacio {c : Char} (rest : Str) (hc : esEspacio c = false) :
    ∃ w ws, palabras (c :: rest) = (c :: w) :: ws := by
  unfold palabras
  rw [List.splitOnP_cons]
  rw [if_neg (by simp [hc])]
  rcases hsp : rest.splitOnP esEspacio with _ | ⟨h0, t0⟩
  · exact absurd hsp (List.splitOnP_ne_nil _ rest)
  · refine ⟨h0, t0.filter (fun w => w ≠ []), ?_⟩
    simp [List.modifyHead]

theorem palabras_mem_ne_nil {t w : Str} (h : w ∈ palabras t) : w ≠ [] := by
  unfold palabras at h
  have h2 := List.of_mem_filter h
  simpa using h2

theorem fold_iniciales (ws : List Str) (a : Str) :
    ws.foldl (fun a w => a ++ (w.take 1).map pyUpperChar) a =
    a ++ (ws.filterMap (fun w => w.head?)).map pyUpperChar := by
  induction ws generalizing a with
  | nil => simp
  | cons w ws ih =>
    rw [List.foldl_cons, ih]
    cases w with
    | nil => simp
    | cons c cs => simp [List.filterMap_cons]

/-- C8 (amended to `modelos.py`): for every valid display name (trimmed,
length at least 2) the generated client id is `<INITIALS>_<timestamp>` where
INITIALS is the upper-cased first letters of at most the first two words,
padded from the name's leading characters, and has exactly two letters. -/
theorem c8_amended :
    ∀ (nombre ts : Str), pyStrip nombre = nombre → 2 ≤ nombre.length →
      generarIdCliente nombre ts = inicialesDe nombre ++ '_' :: ts ∧
      (inicialesDe nombre).length = 2 := by
  intro nombre ts hs hlen
  have heq : generarIdCliente nombre ts = inicialesDe nombre ++ '_' :: ts := by
    unfold generarIdCliente inicialesDe
    dsimp only
    rw [fold_iniciales]
    simp only [List.nil_append]
  refine ⟨heq, ?_⟩
  obtain ⟨c, rest, rfl⟩ : ∃ c rest, nombre = c :: rest := by
    cases nombre with
    | nil => simp at hlen
    | cons c rest => exact ⟨c, rest, rfl⟩
  have hc : esEspacio c = false :=
    head_no_espacio_of_lstrip (pyStrip_fixed_parts hs).1
  obtain ⟨w, ws, hp⟩ := palabras_cons_no_espacio rest hc
  have hrest : 1 ≤ rest.length := by simpa using hlen
  obtain ⟨e, rest', rfl⟩ : ∃ e rest', rest = e :: rest' := by
    cases rest with
    | nil => simp at hrest
    | cons e rest' => exact ⟨e, rest', rfl⟩
  unfold inicialesDe
  dsimp only
  rw [hp]
  cases ws with
  | nil => simp
  | cons w2 ws2 =>
    have hw2 : w2 ≠ [] := palabras_mem_ne_nil (t := c :: e :: rest') (by rw [hp]; simp)
    obtain ⟨d, w2', rfl⟩ : ∃ d w2', w2 = d :: w2' := by
      cases w2 with
      | nil => exact absurd rfl hw2
      | cons d w2' => exact ⟨d, w2', rfl⟩
    simp [List.filterMap_cons]

/-- Witness for C8 at the name `Ana Garcia`. -/
theorem c8_witness :
    generarIdCliente "Ana Garcia".toList "20241022143045".toList =
      inicialesDe "Ana Garcia".toList ++ '_' :: "20241022143045".toList ∧
    (inicialesDe "Ana Garcia".toList).length = 2 :=
  c8_amended "Ana Garcia".toList "20241022143045".toList (by decide) (by decide)

/-! ## C4 amended: get with lazy load under the Spanish manager -/

/-- C4 (amended to `cliente_manager.py`): for every state and every name of
length at least 2 after trimming, `obtener_cliente` returns the cached record
on an index hit; on a miss with the file present and decodable it inserts the
decoded record into the index and returns it; and it fails with `NotFound`
exactly when the key is in neither the index nor the filesystem. -/
theorem c4_amended :
    ∀ (st : EstadoS) (nombre ahora : Str), 2 ≤ (pyStrip nombre).length →
      (∀ c, buscaA st.cache (claveDe nombre) = some c →
        obtenerCliente st nombre ahora = (st, .ok c)) ∧
      (∀ ct c, buscaA st.cache (claveDe nombre) = none →
        buscaA st.disco (claveDe nombre) = some ct →
        desdeArchivo ct ahora = .ok c →
        obtenerCliente st nombre ahora =
          ({ st with cache := insertA st.cache (claveDe nombre) c }, .ok c)) ∧
      ((obtenerCliente st nombre ahora).2 = .error .clienteNoEncontrado ↔
        (buscaA st.cache (claveDe nombre) = none ∧
         buscaA st.disco (claveDe nombre) = none)) := by
  intro st nombre ahora hlen
  have hmk : mkCliente nombre "0000000000".toList "temp@temp.com".toList [] =
      .ok { nombre := pyStrip nombre, telefono := "0000000000".toList,
            email := "temp@temp.com".toList, id_cliente := [], fecha_registro := [],
            servicios := [] } := by
    unfold mkCliente
    dsimp only
    rw [if_neg (by omega)]
    rw [if_neg (by decide), if_neg (by decide)]
    rfl
  refine ⟨?_, ?_, ?_⟩
  · intro c hc
    unfold obtenerCliente
    rw [hmk]
    dsimp only
    unfold claveDe at hc
    rw [hc]
  · intro ct c hcn hdisco hdec
    unfold obtenerCliente
    rw [hmk]
    dsimp only
    unfold claveDe at hcn hdisco
    rw [hcn, hdisco]
    dsimp only
    rw [hdec]
    unfold claveDe
    rfl
  · unfold obtenerCliente
    rw [hmk]
    dsimp only
    unfold claveDe
    rcases hc : buscaA st.cache (nombreNormalizado (pyStrip nombre)) with _ | c
    · rcases hd : buscaA st.disco (nombreNormalizado (pyStrip nombre)) with _ | ct
      · simp
      · rcases hdec : desdeArchivo ct ahora with e | c2
        · simp [hdec]
        · simp [hdec]
    · simp

/-- Witness for C4: a cache hit on `estadoEj` under a differently-cased
name returns the cached record. -/
theorem c4_witness :
    obtenerCliente estadoEj "ANA GARCIA".toList "2025-01-01 00:00:00".toList =
      (estadoEj, .ok clienteEj) :=
  (c4_amended estadoEj "ANA GARCIA".toList "2025-01-01 00:00:00".toList
    (by decide)).1 clienteEj (by decide)

/-! ## C3 amended: AlreadyExists exactly on key collision -/

theorem mkCliente_ok_nombre {n t e h : Str} {c : Cliente}
    (hmk : mkCliente n t e h = .ok c) : c.nombre = pyStrip n := by
  unfold mkCliente at hmk
  dsimp only at hmk
  split_ifs at hmk with h1 h2 h3
  have h4 := Except.ok.inj hmk
  subst h4
  rfl

theorem agregarServicio_error {c : Cliente} {d a : Str} {e : AxErr}
    (h : agregarServicio c d a = .error e) :
    e = .errorValidacion "descripcion_servicio".toList := by
  unfold agregarServicio at h
  split_ifs at h with h1
  exact (Except.error.inj h).symm

/-- C3 (amended to `cliente_manager.py`): for every state and every create
input passing field validation, `crear_cliente` fails with `AlreadyExists`
exactly when the normalized key of the input name is in the index or a file
with that key exists on disk.  Keys are casing- and outer-whitespace
insensitive, but each internal space maps to its own underscore, so names
differing in internal whitespace runs get different keys (see the
counterexample). -/
theorem c3_amended :
    ∀ (st : EstadoS) (nombre telefono email servicio hoy ts ahora : Str) (wOk : Bool)
      (c : Cliente), mkCliente nombre telefono email hoy = .ok c →
      ((crearCliente st nombre telefono email servicio hoy ts ahora wOk).2 =
          .error .clienteExiste ↔
        ((buscaA st.cache (claveDe nombre)).isSome ∨
         (buscaA st.disco (claveDe nombre)).isSome)) := by
  intro st nombre telefono email servicio hoy ts ahora wOk c hmk
  have hn : c.nombre = pyStrip nombre := mkCliente_ok_nombre hmk
  unfold crearCliente
  rw [hmk]
  dsimp only
  have hkey : claveDe nombre = nombreNormalizado c.nombre := by
    unfold claveDe
    rw [hn]
  rw [hkey]
  by_cases h1 : (buscaA st.cache (nombreNormalizado c.nombre)).isSome
  · rw [if_pos h1]
    simp [h1]
  · rw [if_neg h1]
    by_cases h2 : (buscaA st.disco (nombreNormalizado c.nombre)).isSome
    · rw [if_pos h2]
      simp [h1, h2]
    · rw [if_neg h2]
      rcases ha : agregarServicio
          { c with id_cliente := generarIdCliente c.nombre ts } servicio ahora with e | c2
      · have he := agregarServicio_error ha
        subst he
        simp [h1, h2]
      · cases wOk
        · simp [h1, h2]
        · simp [h1, h2]

/-- Witness for C3: with `ana_garcia` cached in `estadoEj`, the create fails
with `AlreadyExists`, matching the right-hand side of the equivalence. -/
theorem c3_witness :
    (crearCliente estadoEj "Ana Garcia".toList "555-123-4567".toList
        "ana@x.com".toList "Otro servicio".toList "2024-10-23".toList
        "20241023090000".toList "2024-10-23 09:00:00".toList true).2 =
        .error .clienteExiste ↔
      ((buscaA estadoEj.cache (claveDe "Ana Garcia".toList)).isSome ∨
       (buscaA estadoEj.disco (claveDe "Ana Garcia".toList)).isSome) :=
  c3_amended estadoEj "Ana Garcia".toList "555-123-4567".toList "ana@x.com".toList
    "Otro servicio".toList "2024-10-23".toList "20241023090000".toList
    "2024-10-23 09:00:00".toList true
    { nombre := "Ana Garcia".toList, telefono := "5551234567".toList,
      email := "ana@x.com".toList, id_cliente := [],
      fecha_registro := "2024-10-23".toList, servicios := [] } (by decide)

/-! ## C1 amended: what the two normalizers actually compute -/

theorem lstrip_idem (s : Str) : lstrip (lstrip s) = lstrip s := by
  unfold lstrip
  induction s with
  | nil => rfl
  | cons c cs ih =>
    rw [List.dropWhile_cons]
    split
    · exact ih
    · next h => rw [List.dropWhile_cons, if_neg h]

theorem rstrip_idem (s : Str) : rstrip (rstrip s) = rstrip s := by
  unfold rstrip
  rw [List.reverse_reverse]
  have h := lstrip_idem s.reverse
  unfold lstrip at h
  rw [h]

theorem rstrip_prefijo (u : Str) : u = rstrip u ++ (u.reverse.takeWhile esEspacio).reverse := by
  unfold rstrip
  conv_lhs => rw [← List.reverse_reverse u,
    ← List.takeWhile_append_dropWhile (p := esEspacio) (l := u.reverse)]
  rw [List.reverse_append]

theorem lstrip_rstrip_of_lstrip {u : Str} (h : lstrip u = u) : lstrip (rstrip u) = rstrip u := by
  cases hr : rstrip u with
  | nil => rfl
  | cons c v =>
    have hpre := rstrip_prefijo u
    rw [hr] at hpre
    generalize (u.reverse.takeWhile esEspacio).reverse = w at hpre
    rw [hpre] at h
    have hc : esEspacio c = false := head_no_espacio_of_lstrip h
    exact lstrip_cons_no v hc

theorem lstrip_pyStrip (s : Str) : lstrip (pyStrip s) = pyStrip s :=
  lstrip_rstrip_of_lstrip (lstrip_idem s)

theorem rstrip_pyStrip (s : Str) : rstrip (pyStrip s) = pyStrip s := rstrip_idem (lstrip s)

theorem pyStrip_idem (s : Str) : pyStrip (pyStrip s) = pyStrip s := by
  unfold pyStrip
  rw [show lstrip (rstrip (lstrip s)) = rstrip (lstrip s) from lstrip_pyStrip s]
  exact rstrip_idem (lstrip s)

theorem esEspacio_pyLowerChar (c : Char) : esEspacio (pyLowerChar c) = esEspacio c := by
  cases h : esEspacio c with
  | true => rw [pyLowerChar_espacio c h, h]
  | false => rw [pyLowerChar_no_espacio c h]

theorem lstrip_pyLower (u : Str) : lstrip (pyLower u) = pyLower (lstrip u) := by
  unfold lstrip pyLower
  rw [List.dropWhile_map]
  rw [show (esEspacio ∘ pyLowerChar) = esEspacio from funext esEspacio_pyLowerChar]

theorem rstrip_pyLower (u : Str) : rstrip (pyLower u) = pyLower (rstrip u) := by
  unfold rstrip pyLower
  rw [← List.map_reverse, List.dropWhile_map, ← List.map_reverse]
  rw [show (esEspacio ∘ pyLowerChar) = esEspacio from funext esEspacio_pyLowerChar]

theorem pyStrip_pyLower (u : Str) : pyStrip (pyLower u) = pyLower (pyStrip u) := by
  unfold pyStrip
  rw [lstrip_pyLower, rstrip_pyLower]

theorem subEspacios_cons_no {c : Char} (prev : Bool) (cs : Str) (hc : esEspacio c = false) :
    subEspacios prev (c :: cs) = c :: subEspacios false cs := by
  conv_lhs => unfold subEspacios
  rw [if_neg (by simp [hc])]

theorem subEspacios_cons_si_false {c : Char} (cs : Str) (hc : esEspacio c = true) :
    subEspacios false (c :: cs) = '_' :: subEspacios true cs := by
  conv_lhs => unfold subEspacios
  rw [if_pos hc]
  simp

theorem subEspacios_cons_si_true {c : Char} (cs : Str) (hc : esEspacio c = true) :
    subEspacios true (c :: cs) = subEspacios true cs := by
  conv_lhs => unfold subEspacios
  rw [if_pos hc]
  simp

theorem subEspacios_palabra {w : Str} (r : Str) (hw : ∀ x ∈ w, esEspacio x = false) :
    subEspacios false (w ++ r) = w ++ subEspacios false r := by
  induction w with
  | nil => rfl
  | cons x w' ih =>
    show subEspacios false (x :: (w' ++ r)) = x :: (w' ++ subEspacios false r)
    rw [subEspacios_cons_no false (w' ++ r) (hw x (by simp))]
    rw [ih (fun y hy => hw y (by simp [hy]))]

theorem subEspacios_true_lstrip (u : Str) : subEspacios true u = subEspacios false (lstrip u) := by
  induction u with
  | nil => rfl
  | cons e u' ih =>
    by_cases he : esEspacio e = true
    · rw [subEspacios_cons_si_true u' he, lstrip_cons_si u' he]
      exact ih
    · have he2 : esEspacio e = false := by revert he; cases esEspacio e <;> simp
      rw [lstrip_cons_no u' he2]
      rw [subEspacios_cons_no true u' he2, subEspacios_cons_no false u' he2]

theorem dropWhile_head_false {p : Char → Bool} :
    ∀ (l : Str) {c : Char} {r : Str}, l.dropWhile p = c :: r → p c = false := by
  intro l
  induction l with
  | nil => intro c r h; exact absurd h (by simp)
  | cons x xs ih =>
    intro c r h
    rw [List.dropWhile_cons] at h
    split at h
    · exact ih h
    · next hx =>
      injection h with h1 h2
      subst h1
      revert hx
      cases p x <;> simp

theorem palabras_lstrip (u : Str) : palabras (lstrip u) = palabras u := by
  induction u with
  | nil => rfl
  | cons e u' ih =>
    by_cases he : esEspacio e = true
    · rw [lstrip_cons_si u' he, ih]
      unfold palabras
      rw [List.splitOnP_cons, if_pos (by simp [he])]
      simp
    · have he2 : esEspacio e = false := by revert he; cases esEspacio e <;> simp
      rw [lstrip_cons_no u' he2]

theorem palabras_split {w : Str} (d : Char) (r : Str)
    (hw : ∀ x ∈ w, esEspacio x = false) (hwne : w ≠ []) (hd : esEspacio d = true) :
    palabras (w ++ d :: r) = w :: palabras r := by
  unfold palabras
  rw [List.splitOnP_first esEspacio w (by intro x hx; simp [hw x hx]) d hd r]
  rw [List.filter_cons, if_pos (by simp [hwne])]

theorem intercalate_guion_cons (w p : Str) (ps : List Str) :
    List.intercalate ['_'] (w :: p :: ps) = w ++ '_' :: List.intercalate ['_'] (p :: ps) := by
  simp only [List.intercalate, List.intersperse_cons_cons, List.flatten_cons]
  simp

theorem rstrip_eq_nil_of_espacios {l : Str} (h : ∀ c ∈ l, esEspacio c = true) :
    rstrip l = [] := by
  unfold rstrip
  rw [List.dropWhile_eq_nil_iff.mpr (by intro x hx; exact h x (List.mem_reverse.mp hx))]
  rfl

theorem rstrip_suffix_fixed {a b : Str} (h : rstrip (a ++ b) = a ++ b) (hne : b ≠ []) :
    rstrip b = b := by
  rcases List.eq_nil_or_concat' b with rfl | ⟨b', lb, rfl⟩
  · exact absurd rfl hne
  have hlb : esEspacio lb = false := by
    by_contra h2
    have h3 : esEspacio lb = true := by revert h2; cases esEspacio lb <;> simp
    rw [← List.append_assoc] at h
    rw [rstrip_append_si (a ++ b') h3] at h
    have hle : (rstrip (a ++ b')).length ≤ (a ++ b').length := by
      unfold rstrip
      calc ((a ++ b').reverse.dropWhile esEspacio).reverse.length
          = ((a ++ b').reverse.dropWhile esEspacio).length := by
            rw [List.length_reverse]
        _ ≤ (a ++ b').reverse.length := (List.dropWhile_sublist _).length_le
        _ = (a ++ b').length := by rw [List.length_reverse]
    have hgt : (rstrip (a ++ b')).length = (a ++ b').length + 1 := by
      rw [h]
      simp [List.length_append]
      omega
    omega
  exact rstrip_append_no b' hlb

theorem subEspacios_eq_palabras :
    ∀ (n : Nat) (t : Str), t.length ≤ n → pyStrip t = t →
      subEspacios false t = List.intercalate ['_'] (palabras t) := by
  intro n
  induction n with
  | zero =>
    intro t ht hs
    have hnil : t = [] := by
      cases t with
      | nil => rfl
      | cons a b => simp at ht
    subst hnil
    rfl
  | succ n ih =>
    intro t ht hs
    cases t with
    | nil => rfl
    | cons c t' =>
      have hc : esEspacio c = false :=
        head_no_espacio_of_lstrip (pyStrip_fixed_parts hs).1
      obtain ⟨w, r, hsplit, hwtake, hrdrop⟩ :
          ∃ w r, w ++ r = c :: t' ∧ w = (c :: t').takeWhile (fun x => !esEspacio x) ∧
            r = (c :: t').dropWhile (fun x => !esEspacio x) :=
        ⟨_, _, List.takeWhile_append_dropWhile _ _, rfl, rfl⟩
      have hwall : ∀ x ∈ w, esEspacio x = false := by
        intro x hx
        rw [hwtake] at hx
        have h2 := List.mem_takeWhile_imp hx
        simpa using h2
      have hwne : w ≠ [] := by
        rw [hwtake, List.takeWhile_cons, if_pos (by simp [hc])]
        simp
      rw [← hsplit, subEspacios_palabra r hwall]
      cases r with
      | nil =>
        rw [List.append_nil]
        have hpal : palabras w = [w] := by
          unfold palabras
          rw [List.splitOnP_eq_single esEspacio w (by intro x hx; simp [hwall x hx])]
          rw [List.filter_cons, if_pos (by simp [hwne])]
          rfl
        rw [hpal]
        show w ++ ([] : Str) = _
        simp [List.intercalate]
      | cons d r' =>
        have hd : esEspacio d = true := by
          have h2 := dropWhile_head_false (p := fun x => !esEspacio x) (c :: t') hrdrop.symm
          simpa using h2
        rw [subEspacios_cons_si_false r' hd, subEspacios_true_lstrip r']
        rw [palabras_split d r' hwall hwne hd, ← palabras_lstrip r']
        have hrfix : rstrip (c :: t') = c :: t' := (pyStrip_fixed_parts hs).2
        have hrfix2 : rstrip (d :: r') = d :: r' :=
          rstrip_suffix_fixed (a := w) (by rw [hsplit]; exact hrfix) (by simp)
        cases hlr : lstrip r' with
        | nil =>
          exfalso
          have hall : ∀ x ∈ r', esEspacio x = true := List.dropWhile_eq_nil_iff.mp hlr
          have hall2 : ∀ x ∈ d :: r', esEspacio x = true := by
            intro x hx
            rcases List.mem_cons.mp hx with rfl | hx2
            · exact hd
            · exact hall x hx2
          have h3 := rstrip_eq_nil_of_espacios hall2
          rw [hrfix2] at h3
          simp at h3
        | cons e v =>
          have he : esEspacio e = false := dropWhile_head_false r' hlr
          have hrne : r' ≠ [] := by
            intro h2
            rw [h2] at hlr
            simp [lstrip] at hlr
          have hrfix3 : rstrip r' = r' :=
            rstrip_suffix_fixed (a := [d]) (b := r') hrfix2 hrne
          have hrfix4 : rstrip (lstrip r') = lstrip r' := by
            apply rstrip_suffix_fixed (a := r'.takeWhile esEspacio) (b := lstrip r')
            · rw [show r'.takeWhile esEspacio ++ lstrip r' = r' from
                List.takeWhile_append_dropWhile _ _]
              exact hrfix3
            · rw [hlr]
              simp
          have hstrip : pyStrip (lstrip r') = lstrip r' := by
            unfold pyStrip
            rw [lstrip_idem, hrfix4]
          have hlen : (lstrip r').length ≤ n := by
            have h2 : (lstrip r').length ≤ r'.length := (List.dropWhile_sublist _).length_le
            have h3 : w.length + (d :: r').length = (c :: t').length := by
              rw [← congrArg List.length hsplit, List.length_append]
            have h4 : 1 ≤ w.length := by
              cases w with
              | nil => exact absurd rfl hwne
              | cons a b => simp
            simp only [List.length_cons] at h3 ht
            omega
          have hih := ih (lstrip r') hlen hstrip
          rw [hlr] at hih
          obtain ⟨w2, ws2, hp2⟩ := palabras_cons_no_espacio v he
          rw [hp2] at hih ⊢
          rw [intercalate_guion_cons]
          rw [← hih]

theorem foldl_reemplazos (ps : List (Char × Char)) (l : Str) :
    ps.foldl (fun s p => pyReplaceChar p.1 p.2 s) l =
    l.map (fun c => ps.foldl (fun d p => if d = p.1 then p.2 else d) c) := by
  induction ps generalizing l with
  | nil => simp
  | cons p ps ih =>
    rw [List.foldl_cons, ih]
    unfold pyReplaceChar
    rw [List.map_map]
    rfl

theorem reemplazaChar_eq (c : Char) :
    reemplazos.foldl (fun d p => if d = p.1 then p.2 else d) c =
    (fun x => if x = ' ' then '_' else x) (translitChar c) := by
  unfold reemplazos translitChar
  by_cases h1 : c = 'á'
  · subst h1; decide
  by_cases h2 : c = 'é'
  · subst h2; decide
  by_cases h3 : c = 'í'
  · subst h3; decide
  by_cases h4 : c = 'ó'
  · subst h4; decide
  by_cases h5 : c = 'ú'
  · subst h5; decide
  by_cases h6 : c = 'ñ'
  · subst h6; decide
  by_cases h7 : c = 'ç'
  · subst h7; decide
  simp [List.foldl_cons, h1, h2, h3, h4, h5, h6, h7]

theorem c1_parte1 (s : Str) : claveDe s = claimNormalizeCadaEspacio s := by
  unfold claveDe nombreNormalizado claimNormalizeCadaEspacio pyLower
  dsimp only
  rw [foldl_reemplazos]
  refine congrArg (List.filter esClaveChar) ?_
  rw [List.map_map, List.map_map, List.map_map]
  apply List.map_congr_left
  intro a ha
  simp only [Function.comp]
  exact reemplazaChar_eq (pyLowerChar a)

/-- C1 (amended): the `modelos.py` normalizer equals the claimed pipeline
with "each maximal whitespace run becomes one underscore" amended to "each
space character becomes one underscore" (other whitespace falls to the final
filter); the `models.py`/`axanet_client_manager.py` normalizer equals the
claimed pipeline with the transliteration and the character filter removed
(trim, lower-case, and join the words with single underscores). -/
theorem c1_amended :
    (∀ s : Str, claveDe s = claimNormalizeCadaEspacio s) ∧
    (∀ s : Str, normalizedNameE s = claimNormalizeSoloEspacios s) := by
  constructor
  · exact c1_parte1
  · intro s
    unfold normalizedNameE claimNormalizeSoloEspacios
    apply subEspacios_eq_palabras (pyLower (pyStrip s)).length _ le_rfl
    rw [pyStrip_pyLower, pyStrip_idem]

/-! ## C2: round-trip of the Spanish codec on store-shaped records -/

/-- Parsing a well-formed Nombre header line stores the stripped value. -/
theorem pasoParse_linea_nombre (d : DatosParse) (v : Str) (hv : pyStrip v = v)
    (hne : v ≠ []) : pasoParse d ("Nombre: ".toList ++ v) = { d with nombre := v } := by
  unfold pasoParse
  have hline : pyStrip ("Nombre: ".toList ++ v) = "Nombre: ".toList ++ v := by
    show pyStrip ('N' :: ("ombre: ".toList ++ v)) = 'N' :: ("ombre: ".toList ++ v)
    exact pyStrip_fixed_cons_append (by decide) (pyStrip_fixed_parts hv).2 hne
  rw [hline]
  rw [if_pos (by simp [esPrefijo] : esPrefijo "Nombre:".toList ("Nombre: ".toList ++ v) = true)]
  have hval : valorTras ("Nombre: ".toList ++ v) = v := by
    rw [show "Nombre: ".toList ++ v = "Nombre".toList ++ ':' :: (' ' :: v) from rfl]
    rw [valorTras_header _ _ (by decide), pyStrip_cons_espacio _ (by decide)]
    exact hv
  rw [hval]

theorem pasoParse_linea_id (d : DatosParse) (v : Str) (hv : pyStrip v = v)
    (hne : v ≠ []) : pasoParse d ("ID_Cliente: ".toList ++ v) = { d with id_cliente := v } := by
  unfold pasoParse
  have hline : pyStrip ("ID_Cliente: ".toList ++ v) = "ID_Cliente: ".toList ++ v := by
    show pyStrip ('I' :: ("D_Cliente: ".toList ++ v)) = 'I' :: ("D_Cliente: ".toList ++ v)
    exact pyStrip_fixed_cons_append (by decide) (pyStrip_fixed_parts hv).2 hne
  rw [hline]
  rw [if_neg (by simp [esPrefijo] :
    ¬(esPrefijo "Nombre:".toList ("ID_Cliente: ".toList ++ v) = true))]
  rw [if_pos (by simp [esPrefijo] :
    esPrefijo "ID_Cliente:".toList ("ID_Cliente: ".toList ++ v) = true)]
  have hval : valorTras ("ID_Cliente: ".toList ++ v) = v := by
    rw [show "ID_Cliente: ".toList ++ v = "ID_Cliente".toList ++ ':' :: (' ' :: v) from rfl]
    rw [valorTras_header _ _ (by decide), pyStrip_cons_espacio _ (by decide)]
    exact hv
  rw [hval]

theorem pasoParse_linea_telefono (d : DatosParse) (v : Str) (hv : pyStrip v = v)
    (hne : v ≠ []) : pasoParse d ("Telefono: ".toList ++ v) = { d with telefono := v } := by
  unfold pasoParse
  have hline : pyStrip ("Telefono: ".toList ++ v) = "Telefono: ".toList ++ v := by
    show pyStrip ('T' :: ("elefono: ".toList ++ v)) = 'T' :: ("elefono: ".toList ++ v)
    exact pyStrip_fixed_cons_append (by decide) (pyStrip_fixed_parts hv).2 hne
  rw [hline]
  rw [if_neg (by simp [esPrefijo] :
    ¬(esPrefijo "Nombre:".toList ("Telefono: ".toList ++ v) = true))]
  rw [if_neg (by simp [esPrefijo] :
    ¬(esPrefijo "ID_Cliente:".toList ("Telefono: ".toList ++ v) = true))]
  rw [if_pos (by simp [esPrefijo] :
    esPrefijo "Telefono:".toList ("Telefono: ".toList ++ v) = true)]
  have hval : valorTras ("Telefono: ".toList ++ v) = v := by
    rw [show "Telefono: ".toList ++ v = "Telefono".toList ++ ':' :: (' ' :: v) from rfl]
    rw [valorTras_header _ _ (by decide), pyStrip_cons_espacio _ (by decide)]
    exact hv
  rw [hval]

theorem pasoParse_linea_correo (d : DatosParse) (v : Str) (hv : pyStrip v = v)
    (hne : v ≠ []) : pasoParse d ("Correo: ".toList ++ v) = { d with email := v } := by
  unfold pasoParse
  have hline : pyStrip ("Correo: ".toList ++ v) = "Correo: ".toList ++ v := by
    show pyStrip ('C' :: ("orreo: ".toList ++ v)) = 'C' :: ("orreo: ".toList ++ v)
    exact pyStrip_fixed_cons_append (by decide) (pyStrip_fixed_parts hv).2 hne
  rw [hline]
  rw [if_neg (by simp [esPrefijo] :
    ¬(esPrefijo "Nombre:".toList ("Correo: ".toList ++ v) = true))]
  rw [if_neg (by simp [esPrefijo] :
    ¬(esPrefijo "ID_Cliente:".toList ("Correo: ".toList ++ v) = true))]
  rw [if_neg (by simp [esPrefijo] :
    ¬(esPrefijo "Telefono:".toList ("Correo: ".toList ++ v) = true))]
  rw [if_pos (by simp [esPrefijo] :
    esPrefijo "Correo:".toList ("Correo: ".toList ++ v) = true)]
  have hval : valorTras ("Correo: ".toList ++ v) = v := by
    rw [show "Correo: ".toList ++ v = "Correo".toList ++ ':' :: (' ' :: v) from rfl]
    rw [valorTras_header _ _ (by decide), pyStrip_cons_espacio _ (by decide)]
    exact hv
  rw [hval]

theorem pasoParse_linea_fecha (d : DatosParse) (v : Str) (hv : pyStrip v = v)
    (hne : v ≠ []) :
    pasoParse d ("FechaRegistro: ".toList ++ v) = { d with fecha_registro := v } := by
  unfold pasoParse
  have hline : pyStrip ("FechaRegistro: ".toList ++ v) = "FechaRegistro: ".toList ++ v := by
    show pyStrip ('F' :: ("echaRegistro: ".toList ++ v)) =
      'F' :: ("echaRegistro: ".toList ++ v)
    exact pyStrip_fixed_cons_append (by decide) (pyStrip_fixed_parts hv).2 hne
  rw [hline]
  rw [if_neg (by simp [esPrefijo] :
    ¬(esPrefijo "Nombre:".toList ("FechaRegistro: ".toList ++ v) = true))]
  rw [if_neg (by simp [esPrefijo] :
    ¬(esPrefijo "ID_Cliente:".toList ("FechaRegistro: ".toList ++ v) = true))]
  rw [if_neg (by simp [esPrefijo] :
    ¬(esPrefijo "Telefono:".toList ("FechaRegistro: ".toList ++ v) = true))]
  rw [if_neg (by simp [esPrefijo] :
    ¬(esPrefijo "Correo:".toList ("FechaRegistro: ".toList ++ v) = true))]
  rw [if_pos (by simp [esPrefijo] :
    esPrefijo "FechaRegistro:".toList ("FechaRegistro: ".toList ++ v) = true)]
  have hval : valorTras ("FechaRegistro: ".toList ++ v) = v := by
    rw [show "FechaRegistro: ".toList ++ v = "FechaRegistro".toList ++ ':' :: (' ' :: v)
      from rfl]
    rw [valorTras_header _ _ (by decide), pyStrip_cons_espacio _ (by decide)]
    exact hv
  rw [hval]

theorem pasoParse_marcador (d : DatosParse) :
    pasoParse d "Servicios:".toList = { d with seccion := true } := rfl

theorem rsplitParen_spec (descr fecha : Str) (hf : '(' ∉ fecha) :
    rsplitParen (descr ++ " (".toList ++ fecha ++ [')']) = (descr ++ [' '], fecha ++ [')']) := by
  unfold rsplitParen
  dsimp only
  have hrev : (descr ++ " (".toList ++ fecha ++ [')']).reverse =
      (')' :: fecha.reverse) ++ '(' :: (' ' :: descr.reverse) := by
    simp [List.reverse_append]
  rw [hrev]
  rw [List.takeWhile_append_of_pos (by
    intro a ha
    rcases List.mem_cons.mp ha with rfl | ha2
    · decide
    · simp only [Bool.not_eq_eq_eq_not, Bool.not_true, beq_eq_false_iff_ne]
      intro h2
      exact hf (h2 ▸ List.mem_reverse.mp ha2))]
  rw [List.takeWhile_cons, if_neg (by decide)]
  have hdesp : ((')' :: fecha.reverse) ++ []).reverse = fecha ++ [')'] := by simp
  rw [hdesp]
  have hlen : (descr ++ " (".toList ++ fecha ++ [')']).length - (fecha ++ [')']).length - 1 =
      (descr ++ [' ']).length := by
    simp [List.length_append]
    omega
  rw [hlen]
  have hshape : descr ++ " (".toList ++ fecha ++ [')'] =
      (descr ++ [' ']) ++ ('(' :: (fecha ++ [')'])) := by
    simp [List.append_assoc]
  rw [hshape, List.take_left]

theorem pasoParse_servicio_con_fecha (d : DatosParse) (s : Servicio)
    (hsec : d.seccion = true) (hdesc : pyStrip s.descripcion = s.descripcion)
    (_hfne : s.fecha_solicitud ≠ []) (hfp : '(' ∉ s.fecha_solicitud)
    (hfq : ')' ∉ s.fecha_solicitud) :
    pasoParse d (lineaServicio s) =
      { d with servicios := d.servicios ++ [(s.descripcion, some s.fecha_solicitud)] } := by
  unfold pasoParse
  have hsh : lineaServicio s =
      '-' :: ((' ' :: (s.descripcion ++ " (".toList ++ s.fecha_solicitud)) ++ [')']) := by
    simp [lineaServicio, List.append_assoc]
  have hline : pyStrip (lineaServicio s) = lineaServicio s := by
    rw [hsh]
    exact pyStrip_fixed_cons_append (by decide) (by decide) (by simp)
  rw [hline]
  have hsh2 : lineaServicio s =
      "- ".toList ++ (s.descripcion ++ " (".toList ++ s.fecha_solicitud ++ [')']) := by
    simp [lineaServicio, List.append_assoc]
  rw [hsh2]
  rw [if_neg (by simp [esPrefijo] : ¬(esPrefijo "Nombre:".toList
    ("- ".toList ++ (s.descripcion ++ " (".toList ++ s.fecha_solicitud ++ [')'])) = true))]
  rw [if_neg (by simp [esPrefijo] : ¬(esPrefijo "ID_Cliente:".toList
    ("- ".toList ++ (s.descripcion ++ " (".toList ++ s.fecha_solicitud ++ [')'])) = true))]
  rw [if_neg (by simp [esPrefijo] : ¬(esPrefijo "Telefono:".toList
    ("- ".toList ++ (s.descripcion ++ " (".toList ++ s.fecha_solicitud ++ [')'])) = true))]
  rw [if_neg (by simp [esPrefijo] : ¬(esPrefijo "Correo:".toList
    ("- ".toList ++ (s.descripcion ++ " (".toList ++ s.fecha_solicitud ++ [')'])) = true))]
  rw [if_neg (by simp [esPrefijo] : ¬(esPrefijo "FechaRegistro:".toList
    ("- ".toList ++ (s.descripcion ++ " (".toList ++ s.fecha_solicitud ++ [')'])) = true))]
  rw [if_neg (by simp :
    ¬("- ".toList ++ (s.descripcion ++ " (".toList ++ s.fecha_solicitud ++ [')']) =
      "Servicios:".toList))]
  rw [if_pos (by simp [hsec, esPrefijo] : (d.seccion && esPrefijo "- ".toList
    ("- ".toList ++ (s.descripcion ++ " (".toList ++ s.fecha_solicitud ++ [')']))) = true)]
  have hdrop : ("- ".toList ++
      (s.descripcion ++ " (".toList ++ s.fecha_solicitud ++ [')'])).drop 2 =
      s.descripcion ++ " (".toList ++ s.fecha_solicitud ++ [')'] := rfl
  rw [hdrop]
  dsimp only
  rw [if_pos (by
    rw [Bool.and_eq_true]
    exact ⟨contains_of_mem (by simp), contains_of_mem (by simp)⟩)]
  rw [rsplitParen_spec s.descripcion s.fecha_solicitud hfp]
  rw [show ((s.descripcion ++ [' '], s.fecha_solicitud ++ [')']) :
    Str × Str).1 = s.descripcion ++ [' '] from rfl]
  rw [show ((s.descripcion ++ [' '], s.fecha_solicitud ++ [')']) :
    Str × Str).2 = s.fecha_solicitud ++ [')'] from rfl]
  rw [pyStrip_append_espacio _ (by decide), hdesc, rstripParen_append _ hfq]

theorem foldl_servicios (ss : List Servicio) :
    ∀ (d : DatosParse), d.seccion = true →
      (∀ s ∈ ss, pyStrip s.descripcion = s.descripcion ∧ s.fecha_solicitud ≠ [] ∧
        '(' ∉ s.fecha_solicitud ∧ ')' ∉ s.fecha_solicitud) →
      (ss.map lineaServicio).foldl pasoParse d =
        { d with servicios :=
            d.servicios ++ ss.map (fun s => (s.descripcion, some s.fecha_solicitud)) } := by
  induction ss with
  | nil => intro d hd hss; simp
  | cons s ss ih =>
    intro d hd hss
    obtain ⟨h1, h2, h3, h4⟩ := hss s (by simp)
    rw [List.map_cons, List.foldl_cons]
    rw [pasoParse_servicio_con_fecha d s hd h1 h2 h3 h4]
    rw [ih _ (by exact hd) (fun x hx => hss x (by simp [hx]))]
    simp

/-- C2 (amended): under the Spanish codec, decoding the encoding of any
store-shaped record (stripped, newline-free textual fields; ten-digit phone;
matching email; nonempty id, registration date and service list; stripped
newline-free descriptions; nonempty timestamps free of parentheses and
newlines) returns exactly the original record, for every current-time value
the decoder might be run at. -/
theorem c2_amended :
    ∀ (c : Cliente) (ahora : Str), Almacenable c →
      desdeArchivo (aFormatoArchivo c) ahora = .ok c := by
  intro c ahora hA
  rcases c with ⟨no, te, em, idc, fr, sv⟩
  obtain ⟨hno, hlen, hnonl, htdig, htlen, hemok, hestrip, hemnl, hidstrip, hidne, hidnl,
    hfrstrip, hfrne, hfrnl, hsvne, hserv⟩ := hA
  dsimp only at hno hlen hnonl htdig htlen hemok hestrip hemnl hidstrip hidne hidnl hfrstrip hfrne hfrnl hsvne hserv
  have hemne : em ≠ [] := by
    intro h
    rw [h] at hemok
    exact absurd hemok (by decide)
  have htne : te ≠ [] := by
    intro h
    rw [h] at htlen
    simp at htlen
  have hnone : no ≠ [] := by
    intro h
    rw [h] at hlen
    simp at hlen
  have htstrip : pyStrip te = te := pyStrip_digitos htdig
  have hL : aFormatoArchivo ⟨no, te, em, idc, fr, sv⟩ =
      uneLineas (["Nombre: ".toList ++ no, "ID_Cliente: ".toList ++ idc,
        "Telefono: ".toList ++ te, "Correo: ".toList ++ em,
        "FechaRegistro: ".toList ++ fr, "Servicios:".toList] ++ sv.map lineaServicio) := rfl
  rw [hL]
  obtain ⟨ss, slast, hsv⟩ := (List.eq_nil_or_concat' sv).resolve_left hsvne
  have hfix : pyStrip (uneLineas (["Nombre: ".toList ++ no, "ID_Cliente: ".toList ++ idc,
      "Telefono: ".toList ++ te, "Correo: ".toList ++ em,
      "FechaRegistro: ".toList ++ fr, "Servicios:".toList] ++ sv.map lineaServicio)) =
      uneLineas (["Nombre: ".toList ++ no, "ID_Cliente: ".toList ++ idc,
      "Telefono: ".toList ++ te, "Correo: ".toList ++ em,
      "FechaRegistro: ".toList ++ fr, "Servicios:".toList] ++ sv.map lineaServicio) := by
    rw [hsv]
    have hsh : (["Nombre: ".toList ++ no, "ID_Cliente: ".toList ++ idc,
        "Telefono: ".toList ++ te, "Correo: ".toList ++ em,
        "FechaRegistro: ".toList ++ fr, "Servicios:".toList] ++
          (ss ++ [slast]).map lineaServicio) =
        ('N' :: ("ombre: ".toList ++ no)) :: ((["ID_Cliente: ".toList ++ idc,
        "Telefono: ".toList ++ te, "Correo: ".toList ++ em,
        "FechaRegistro: ".toList ++ fr, "Servicios:".toList] ++
          ss.map lineaServicio) ++ [lineaServicio slast]) := by
      rw [List.map_append]
      simp [List.append_assoc]
    rw [hsh]
    apply pyStrip_uneLineas_fixed
    · decide
    · have hshape : lineaServicio slast = ("- ".toList ++ slast.descripcion ++
          " (".toList ++ slast.fecha_solicitud) ++ [')'] := by
        simp [lineaServicio, List.append_assoc]
      rw [hshape]
      exact rstrip_append_no _ (by decide)
    · simp [lineaServicio]
  have hnl2 : ∀ l ∈ (["Nombre: ".toList ++ no, "ID_Cliente: ".toList ++ idc,
      "Telefono: ".toList ++ te, "Correo: ".toList ++ em,
      "FechaRegistro: ".toList ++ fr, "Servicios:".toList] ++ sv.map lineaServicio),
      '\n' ∉ l := by
    intro l hl
    rw [List.mem_append] at hl
    rcases hl with hl | hl
    · simp only [List.mem_cons, List.not_mem_nil, or_false] at hl
      rcases hl with rfl | rfl | rfl | rfl | rfl | rfl
      · simp only [List.mem_append]
        rintro (h | h)
        · revert h; decide
        · exact hnonl h
      · simp only [List.mem_append]
        rintro (h | h)
        · revert h; decide
        · exact hidnl h
      · simp only [List.mem_append]
        rintro (h | h)
        · revert h; decide
        · exact no_nl_digitos htdig h
      · simp only [List.mem_append]
        rintro (h | h)
        · revert h; decide
        · exact hemnl h
      · simp only [List.mem_append]
        rintro (h | h)
        · revert h; decide
        · exact hfrnl h
      · decide
    · rw [List.mem_map] at hl
      obtain ⟨s, hs, rfl⟩ := hl
      obtain ⟨d1, d2, d3, d4, d5, d6⟩ := hserv s hs
      unfold lineaServicio
      simp only [List.mem_append, List.mem_cons, List.not_mem_nil]
      rintro ((((h | h) | h) | h) | h)
      · revert h; decide
      · exact d2 h
      · revert h; decide
      · exact d4 h
      · simp at h
  have hne2 : (["Nombre: ".toList ++ no, "ID_Cliente: ".toList ++ idc,
      "Telefono: ".toList ++ te, "Correo: ".toList ++ em,
      "FechaRegistro: ".toList ++ fr, "Servicios:".toList] ++ sv.map lineaServicio) ≠ [] := by
    simp
  unfold desdeArchivo
  rw [hfix]
  rw [splitOn_uneLineas _ hnl2 hne2]
  dsimp only
  rw [List.foldl_append]
  rw [List.foldl_cons, pasoParse_linea_nombre parseInicial no hno hnone]
  rw [List.foldl_cons, pasoParse_linea_id _ idc hidstrip hidne]
  rw [List.foldl_cons, pasoParse_linea_telefono _ te htstrip htne]
  rw [List.foldl_cons, pasoParse_linea_correo _ em hestrip hemne]
  rw [List.foldl_cons, pasoParse_linea_fecha _ fr hfrstrip hfrne]
  rw [List.foldl_cons, pasoParse_marcador _]
  rw [List.foldl_nil]
  rw [foldl_servicios sv _ (by exact rfl)
    (fun s hs => ⟨(hserv s hs).1, (hserv s hs).2.2.1,
      (hserv s hs).2.2.2.2.1, (hserv s hs).2.2.2.2.2⟩)]
  dsimp only
  have hmk : mkCliente no te em [] =
      .ok { nombre := no, telefono := te, email := em, id_cliente := [],
            fecha_registro := [], servicios := [] } := by
    unfold mkCliente
    dsimp only
    rw [hno, htstrip, hestrip]
    rw [if_neg (by omega)]
    rw [List.filter_eq_self.mpr (fun a ha => List.all_eq_true.mp htdig a ha)]
    rw [if_neg (by rw [htlen]; simp)]
    rw [if_neg (by rw [hemok]; simp)]
  rw [hmk]
  dsimp only
  rw [show parseInicial.servicios = ([] : List (Str × Option Str)) from rfl, List.nil_append]
  rw [List.map_map]
  have hmapsv : sv.map ((fun p => Servicio.nuevo p.1 p.2 ahora) ∘
      (fun s => (s.descripcion, some s.fecha_solicitud))) = sv := by
    conv_rhs => rw [← List.map_id sv]
    apply List.map_congr_left
    intro s hs
    obtain ⟨d1, d2, d3, d4, d5, d6⟩ := hserv s hs
    obtain ⟨sd, sf⟩ := s
    simp only [Function.comp, Servicio.nuevo, List.map_id, id]
    dsimp only at d1 d3
    rw [d1, if_neg d3]
  rw [hmapsv]

/-- Closed witness for c2_amended at the concrete record clienteEj. -/
theorem c2_witness :
    Almacenable clienteEj ∧
      desdeArchivo (aFormatoArchivo clienteEj) "2024-10-23 09:00:00".toList =
        .ok clienteEj :=
  ⟨by decide, c2_amended clienteEj ("2024-10-23 09:00:00".toList) (by decide)⟩

end Axanet
